import Mathlib

/-
Verification development for the DepGuardian risk-resolution core.

The TypeScript sources are shallowly embedded: async registry/vulnerability
lookups become explicit function parameters, try/catch error recovery becomes
Option/Except, and JavaScript numbers become Nat/Int (exact for the integer
quantities involved; the one floating-point computation, the confidence score,
is embedded in integer tenths — see the comment at calculateConfidence).

`src/core/updater.ts` defines getAvailableVersions, findFixedVersions,
findSafestUpgrade and calculateConfidence twice inside one class body.  Under
JavaScript semantics the later definition of a class method overwrites the
earlier one on the prototype, so the embedding follows the second definition of
each (the repository's own unit tests for confidence pass only under the
second definitions).

Semantic-version strings follow the full npm grammar
`[v](0|[1-9]d*).(0|[1-9]d*).(0|[1-9]d*)[-prerelease][+build]` (leading zeros
rejected on numeric components, dot-separated prerelease identifiers that are
either leading-zero-free numerics or alphanumerics with at least one
non-digit, build metadata parsed and ignored for precedence, optional leading
`v`; the input-trimming of whitespace the library also performs is outside
the modelled domain).  Precedence is the npm one: numeric triple first, then
a release outranks any prerelease of the same triple, then prerelease
identifier lists lexicographically with numeric identifiers below
alphanumeric ones and a strict prefix below its extension.  Crucially,
`semver.maxSatisfying(versions, star)` — the body of `maxVersion` — admits
NO prerelease version (a prerelease satisfies a range only via a comparator
carrying a prerelease on the same triple, which the star range lacks), while
`semver.gt` orders prereleases normally; this asymmetry is observable in the
upgrade resolver.  `semver.coerce` is modelled by `coerceVersion` below,
which extracts the first run of up to three dot-joined digit groups and
drops any prerelease, as the npm library does.
-/

/-- A prerelease identifier: numeric (compares numerically, below every
alphanumeric identifier) or alphanumeric (compares by code units). -/
inductive PreId where
  | num (n : Nat)
  | str (s : String)
deriving DecidableEq, Repr

/-- A parsed semantic version: numeric triple plus prerelease identifier
list (empty for a release; build metadata carries no precedence and is not
stored). -/
structure Version where
  major : Nat
  minor : Nat
  patch : Nat
  prerelease : List PreId := []
deriving DecidableEq, Repr

/-- `compareIdentifiers` of the npm library: numerics compare numerically
and sort below alphanumerics; alphanumerics compare as strings. -/
def preIdLt : PreId → PreId → Bool
  | PreId.num a, PreId.num b => a < b
  | PreId.num _, PreId.str _ => true
  | PreId.str _, PreId.num _ => false
  | PreId.str a, PreId.str b => a < b

/-- Lexicographic order on two (conceptually non-empty) prerelease
identifier lists; a strict prefix sorts below its extension. -/
def preListLt : List PreId → List PreId → Bool
  | [], [] => false
  | [], _ :: _ => true
  | _ :: _, [] => false
  | a :: as, b :: bs => preIdLt a b || (a == b && preListLt as bs)

/-- `comparePre`: a version WITH a prerelease sorts below the release of the
same triple; two prereleases compare identifier-wise. -/
def preLt (x y : List PreId) : Bool :=
  match x, y with
  | [], _ => false
  | _ :: _, [] => true
  | x, y => preListLt x y

/-- Strict semantic-version order on parsed versions (major, then minor,
then patch, then prerelease), as `semver.gt`/`semver.compare` order
versions. -/
def vlt (a b : Version) : Bool :=
  a.major < b.major ||
  (a.major == b.major && (a.minor < b.minor ||
    (a.minor == b.minor && (a.patch < b.patch ||
      (a.patch == b.patch && preLt a.prerelease b.prerelease)))))

/-- Digit-run characters to a natural number, most significant first. -/
def digitsToNat (l : List Char) : Nat :=
  l.foldl (fun a c => a * 10 + (c.toNat - '0'.toNat)) 0

/-- Characters allowed in prerelease/build identifiers: ASCII alphanumerics
and the hyphen. -/
def isIdChar (c : Char) : Bool :=
  c.isAlpha || c.isDigit || c = '-'

/-- Split a character sequence at every dot (dot-separated identifier
fields; empty fields are preserved so they can be rejected). -/
def splitOnDot : List Char → List (List Char)
  | [] => [[]]
  | '.' :: rest => [] :: splitOnDot rest
  | c :: rest =>
    match splitOnDot rest with
    | [] => [[c]]
    | x :: xs => (c :: x) :: xs

/-- A valid numeric identifier `0|[1-9]d*`: non-empty digits, no leading
zero. -/
def validNumeric (d : List Char) : Bool :=
  !d.isEmpty && d.all Char.isDigit && !(decide (1 < d.length) && d.head? == some '0')

/-- One prerelease identifier: a leading-zero-free numeric, or an
alphanumeric (at least one non-digit) over the identifier alphabet. -/
def parsePreId (d : List Char) : Option PreId :=
  if d.isEmpty || !d.all isIdChar then none
  else if d.all Char.isDigit then
    if validNumeric d then some (PreId.num (digitsToNat d)) else none
  else some (PreId.str (String.mk d))

/-- All dot-separated prerelease identifiers, or `none` if any is
invalid. -/
def parsePreIds : List (List Char) → Option (List PreId)
  | [] => some []
  | d :: ds =>
    match parsePreId d, parsePreIds ds with
    | some i, some is => some (i :: is)
    | _, _ => none

/-- Build metadata: dot-separated non-empty identifier-alphabet fields
(leading zeros allowed; ignored for precedence). -/
def validBuild (l : List Char) : Bool :=
  (splitOnDot l).all (fun d => !d.isEmpty && d.all isIdChar)

/-- Parse the body of a valid semver version: `M.m.p` with leading-zero-free
numeric components, an optional `-prerelease` identifier list, and optional
`+build` metadata (validated, then dropped). -/
def parseVerCore (l : List Char) : Option Version :=
  match l.span (fun c => c ≠ '-' && c ≠ '+') with
  | (core, rest) =>
    match splitOnDot core with
    | [d1, d2, d3] =>
      if validNumeric d1 && validNumeric d2 && validNumeric d3 then
        match rest with
        | [] => some ⟨digitsToNat d1, digitsToNat d2, digitsToNat d3, []⟩
        | '-' :: pr =>
          match pr.span (fun c => c ≠ '+') with
          | (preSec, rest2) =>
            match parsePreIds (splitOnDot preSec) with
            | none => none
            | some ids =>
              match rest2 with
              | [] => some ⟨digitsToNat d1, digitsToNat d2, digitsToNat d3, ids⟩
              | '+' :: build =>
                if validBuild build then
                  some ⟨digitsToNat d1, digitsToNat d2, digitsToNat d3, ids⟩
                else none
              | _ => none
        | '+' :: build =>
          if validBuild build then some ⟨digitsToNat d1, digitsToNat d2, digitsToNat d3, []⟩
          else none
        | _ => none
      else none
    | _ => none

/-- `semver.valid`-style strict parse: optional leading `v`, then `M.m.p`. -/
def parseVersion (s : String) : Option Version :=
  match s.data with
  | 'v' :: rest => parseVerCore rest
  | l => parseVerCore l

/-- `semver.coerce`: skip to the first digit, read up to three dot-joined digit
runs, defaulting missing components to zero; `none` when the string holds no
digit at all. -/
def coerceVersion (s : String) : Option Version :=
  match (s.data.dropWhile (fun c => !c.isDigit)).span Char.isDigit with
  | ([], _) => none
  | (d1, r1) =>
    match r1 with
    | '.' :: r2 =>
      match r2.span Char.isDigit with
      | ([], _) => some ⟨digitsToNat d1, 0, 0, []⟩
      | (d2, r3) =>
        match r3 with
        | '.' :: r4 =>
          match r4.span Char.isDigit with
          | ([], _) => some ⟨digitsToNat d1, digitsToNat d2, 0, []⟩
          | (d3, _) => some ⟨digitsToNat d1, digitsToNat d2, digitsToNat d3, []⟩
        | _ => some ⟨digitsToNat d1, digitsToNat d2, 0, []⟩
    | _ => some ⟨digitsToNat d1, 0, 0, []⟩

/-- The fragment of the npm range language the embedding supports: any (`*`),
a single comparator, a caret range or a tilde range over a full `M.m.p` base.
Strings outside this grammar are the malformed ranges of the spec. -/
inductive Range where
  | any : Range
  | exact (v : Version) : Range
  | lt (v : Version) : Range
  | le (v : Version) : Range
  | gt (v : Version) : Range
  | ge (v : Version) : Range
  | caret (v : Version) : Range
  | tilde (v : Version) : Range
deriving DecidableEq, Repr

/-- Parse a range string in the supported fragment; `none` on anything else
(the malformed-range case). -/
def parseRange (s : String) : Option Range :=
  match s.data with
  | ['*'] => some Range.any
  | '^' :: rest => (parseVerCore rest).map Range.caret
  | '~' :: rest => (parseVerCore rest).map Range.tilde
  | '>' :: '=' :: rest => (parseVerCore rest).map Range.ge
  | '<' :: '=' :: rest => (parseVerCore rest).map Range.le
  | '>' :: rest => (parseVerCore rest).map Range.gt
  | '<' :: rest => (parseVerCore rest).map Range.lt
  | '=' :: rest => (parseVerCore rest).map Range.exact
  | l => (parseVerCore l).map Range.exact

/-- npm's prerelease gate: a version carrying a prerelease can satisfy a
range only through a comparator that itself carries a prerelease on the same
`major.minor.patch` triple; the star range has no such comparator. -/
def rangePreAllowed (v : Version) (r : Range) : Bool :=
  match r with
  | Range.any => false
  | Range.exact b | Range.lt b | Range.le b | Range.gt b | Range.ge b
  | Range.caret b | Range.tilde b =>
    !b.prerelease.isEmpty && v.major == b.major && v.minor == b.minor && v.patch == b.patch

/-- Range membership for a parsed version, following npm semver semantics on
the supported fragment (prerelease versions pass only through
`rangePreAllowed`). -/
def rangeTest (v : Version) (r : Range) : Bool :=
  if !v.prerelease.isEmpty && !rangePreAllowed v r then false
  else
  match r with
  | Range.any => true
  | Range.exact b => v = b
  | Range.lt b => vlt v b
  | Range.le b => vlt v b || v = b
  | Range.gt b => vlt b v
  | Range.ge b => vlt b v || v = b
  | Range.caret b =>
      (vlt b v || v = b) &&
      (if b.major > 0 then v.major = b.major
       else if b.minor > 0 then v.major = 0 && v.minor = b.minor
       else v = b)
  | Range.tilde b =>
      (vlt b v || v = b) && v.major = b.major && v.minor = b.minor

/-- `SemverUtils.satisfies` (src/utils/semver-utils.ts): total on arbitrary
strings, `false` when either side fails to parse (the library returns false on
malformed input and the wrapper catches anything else). -/
def satisfies (version constraint : String) : Bool :=
  match parseVersion version, parseRange constraint with
  | some v, some r => rangeTest v r
  | _, _ => false

/-- `SemverUtils.greaterThan`: `semver.gt` with failures caught as `false`. -/
def greaterThan (version1 version2 : String) : Bool :=
  match parseVersion version1, parseVersion version2 with
  | some a, some b => vlt b a
  | _, _ => false

/-- `SemverUtils.isBreakingUpgrade`: coerce both sides; unparsable input is
breaking by policy, otherwise breaking iff the major component increases. -/
def isBreakingUpgrade (fromVersion toVersion : String) : Bool :=
  match coerceVersion fromVersion, coerceVersion toVersion with
  | some f, some t => f.major < t.major
  | _, _ => true

/-- `SemverUtils.sameMajorVersion`: coerce both sides, `false` on failure. -/
def sameMajorVersion (version1 version2 : String) : Bool :=
  match coerceVersion version1, coerceVersion version2 with
  | some a, some b => a.major = b.major
  | _, _ => false

/-- `SemverUtils.versionsInRange`: filter by `satisfies`. -/
def versionsInRange (allVersions : List String) (range : String) : List String :=
  allVersions.filter (fun version => satisfies version range)

/-- One step of `semver.maxSatisfying(versions, star)`: keep the first-seen
maximum among the parseable RELEASE entries — unparseable entries are
ignored, and so is every prerelease version, because nothing in the star
range lets a prerelease satisfy it. -/
def maxVerStep (acc : Option (String × Version)) (v : String) : Option (String × Version) :=
  match parseVersion v with
  | none => acc
  | some pv =>
    if !pv.prerelease.isEmpty then acc
    else
      match acc with
      | none => some (v, pv)
      | some (b, pb) => if vlt pb pv then some (v, pv) else some (b, pb)

/-- `SemverUtils.maxVersion`: `semver.maxSatisfying(versions, star)` — the
highest parseable release version of the list, `none` when there is none
(in particular when every parseable entry is a prerelease). -/
def maxVersion (versions : List String) : Option String :=
  (versions.foldl maxVerStep none).map (fun p => p.1)

example : parseVersion "1.0.0" = some ⟨1, 0, 0, []⟩ := by decide
example : parseVersion "v10.2.33" = some ⟨10, 2, 33, []⟩ := by decide
example : parseVersion "invalid" = none := by decide
example : parseVersion "1.0" = none := by decide
example : parseVersion "01.0.0" = none := by decide
example : parseVersion "1.0.0-01" = none := by decide
example : parseVersion "1.1.0-rc.1" = some ⟨1, 1, 0, [PreId.str "rc", PreId.num 1]⟩ := by decide
example : parseVersion "1.0.0-alpha+20130313144700" = some ⟨1, 0, 0, [PreId.str "alpha"]⟩ := by decide
example : coerceVersion "invalid" = none := by decide
example : coerceVersion "^1.2.3" = some ⟨1, 2, 3, []⟩ := by decide
example : coerceVersion "v2" = some ⟨2, 0, 0, []⟩ := by decide
example : coerceVersion "1.1.0-rc.1" = some ⟨1, 1, 0, []⟩ := by decide
example : satisfies "1.1.0" "^1.0.0" = true := by decide
example : satisfies "2.0.0" "^1.0.0" = false := by decide
example : satisfies "invalid" "^1.0.0" = false := by decide
example : satisfies "1.0.0" "invalid" = false := by decide
example : greaterThan "2.0.0" "1.0.0" = true := by decide
example : greaterThan "1.0.0" "2.0.0" = false := by decide
example : greaterThan "invalid" "1.0.0" = false := by decide
example : isBreakingUpgrade "1.0.0" "2.0.0" = true := by decide
example : isBreakingUpgrade "1.0.0" "1.1.0" = false := by decide
example : isBreakingUpgrade "invalid" "2.0.0" = true := by decide
example : versionsInRange ["1.0.0", "1.1.0"] "invalid" = [] := by decide
example : greaterThan "1.1.0-rc.1" "1.0.1" = true := by decide
example : greaterThan "1.0.0" "1.0.0-rc.1" = true := by decide
example : satisfies "1.1.0-rc.1" "^1.0.0" = false := by decide
example : maxVersion ["1.0.1", "1.1.0", "1.0.2"] = some "1.1.0" := by decide
example : maxVersion ["junk"] = none := by decide
example : maxVersion ["1.0.1", "1.1.0-rc.1"] = some "1.0.1" := by decide
example : maxVersion ["1.1.0-rc.1"] = none := by decide

/-- Vulnerability severity (`'low' | 'medium' | 'high' | 'critical'`). -/
inductive Severity where
  | low | medium | high | critical
deriving DecidableEq, Repr

/-- Upgrade confidence (`'high' | 'medium' | 'low'`). -/
inductive Confidence where
  | high | medium | low
deriving DecidableEq, Repr

/-- A vulnerability record (src/types/vulnerability.ts is not among the
provided sources; the structure keeps exactly the fields the embedded
operations read or write, with the TS string-literal `source` union kept as a
plain string).  Optional TS fields are `Option`s. -/
structure Vulnerability where
  id : String
  packageName : String
  severity : Severity
  patchedVersions : List String := []
  references : Option (List String) := none
  source : String
  cvssScore : Option Rat := none
  cvssVector : Option String := none
  cveId : Option String := none
deriving DecidableEq, Repr

/-- A resolved dependency (name, declared version, dependency kind). -/
structure Dependency where
  name : String
  version : String
  dtype : String := "dependencies"
deriving DecidableEq, Repr

/-- The computed upgrade recommendation (UpgradePath).  `riskScore` is the
exact integer the JS number arithmetic produces. -/
structure UpgradePath where
  packageName : String
  currentVersion : String
  targetVersion : String
  isBreaking : Bool
  fixedVulnerabilities : List String
  changelogUrl : Option String
  confidence : Confidence
  riskScore : Int
deriving DecidableEq, Repr

/-- JS `Set` iteration order: keep the first occurrence of each element,
tracking what has been seen so far. -/
def dedupFirstAux (seen : List String) : List String → List String
  | [] => []
  | x :: xs =>
    if seen.contains x then dedupFirstAux seen xs
    else x :: dedupFirstAux (x :: seen) xs

/-- Elements of a JS `Set` built by insertion, in iteration order. -/
def dedupFirst (l : List String) : List String :=
  dedupFirstAux [] l

/-- `findFixedVersions` (second definition, src/core/updater.ts lines
346-360, the one in effect at runtime): the declared patched versions that
are actually published, first-seen order, de-duplicated via a `Set`. -/
def findFixedVersions (vulnerabilities : List Vulnerability) (availableVersions : List String) : List String :=
  dedupFirst ((vulnerabilities.flatMap (fun v => v.patchedVersions)).filter
    (fun pv => availableVersions.contains pv))

/-- `findSafestUpgrade` (second definition, src/core/updater.ts lines
362-392, the one in effect at runtime): keep the fixed versions strictly
above the current version; prefer the highest non-breaking one, otherwise
take the highest remaining (breaking) one. -/
def findSafestUpgrade (currentVersion : String) (fixedVersions : List String) : Option String :=
  let validUpgrades := fixedVersions.filter (fun version => greaterThan version currentVersion)
  if validUpgrades.isEmpty then none
  else
    let nonBreakingUpgrades := validUpgrades.filter
      (fun version => !(isBreakingUpgrade currentVersion version))
    if !nonBreakingUpgrades.isEmpty then maxVersion nonBreakingUpgrades
    else maxVersion validUpgrades

/-- Modelled from the spec: `SemverUtils.major` and `SemverUtils.minor` are
called by the updater's confidence calculation but are absent from the
provided src/utils/semver-utils.ts; per the Version Comparator section of the
spec they are the semantic-version component accessors (npm `semver.major` /
`semver.minor`), which throw on an unparsable version — modelled as `none`. -/
def semverMajorMinor (s : String) : Option (Nat × Nat) :=
  (parseVersion s).map (fun v => (v.major, v.minor))

/-- `calculateConfidence` (second definition, src/core/updater.ts lines
394-431, the one in effect at runtime).  The JS score is a float built from
the literals 0.2, 0.6, 0.3 and 0.1; here it is carried in integer tenths.
For every branch combination the JS double arithmetic was checked to land in
the same bucket as the exact value (the reachable sums are 0.1, 0.3, 0.5,
0.7, 0.8 and 1.0 up to one ulp, and none of the roundings crosses the 0.5 or
0.8 thresholds), so the integer embedding returns the same confidence as the
source for every input.  `none` models the exception when `semver.major` /
`semver.minor` reject an unparsable version (caught by the caller). -/
def calculateConfidence (currentVersion targetVersion : String) (fixedVersions : List String) : Option Confidence :=
  match semverMajorMinor currentVersion, semverMajorMinor targetVersion with
  | some (curMajor, curMinor), some (tgtMajor, tgtMinor) =>
    let base : Int := 2 + (if fixedVersions.contains targetVersion then 2 else 0)
    let score : Int := base +
      (if curMajor = tgtMajor then (if curMinor = tgtMinor then 6 else 3) else -1)
    let clamped : Int := max 0 (min 10 score)
    some (if clamped ≥ 8 then Confidence.high
          else if clamped ≥ 5 then Confidence.medium
          else Confidence.low)
  | _, _ => none

/-- Severity weight of a current vulnerability in `calculateRiskScore`. -/
def currentRiskPoints : Severity → Int
  | Severity.critical => 10
  | Severity.high => 5
  | Severity.medium => 2
  | Severity.low => 1

/-- Severity weight of a newly introduced vulnerability in
`calculateRiskScore`. -/
def newRiskPoints : Severity → Int
  | Severity.critical => 8
  | Severity.high => 4
  | Severity.medium => 2
  | Severity.low => 1

/-- `calculateRiskScore` (src/core/updater.ts lines 201-255): weighted
current severities, minus a fixed credit per vulnerability, plus weighted new
severities, plus a breaking penalty, floored at zero. -/
def calculateRiskScore (currentVulnerabilities newVulnerabilities : List Vulnerability)
    (currentVersion targetVersion : String) : Int :=
  let s1 := currentVulnerabilities.foldl (fun a v => a + currentRiskPoints v.severity) 0
  let s2 := s1 - 3 * currentVulnerabilities.length
  let s3 := newVulnerabilities.foldl (fun a v => a + newRiskPoints v.severity) s2
  let s4 := s3 + (if isBreakingUpgrade currentVersion targetVersion then 3 else 0)
  max 0 s4

/-- `calculateUpgradePath` (src/core/updater.ts lines 17-70).  The two
registry fetches and the OSV query become explicit parameters:
`availableVersions` is the published-version list the npm registry returned
(`[]` both for an empty registry answer and for a failed fetch, which the
source converts to `[]` before the emptiness check), `osvQuery` maps the
chosen target version to the vulnerabilities reported for it, and
`changelogUrl` is the optional changelog link.  Every caught exception —
including the confidence calculation rejecting an unparsable version —
yields `none`. -/
def calculateUpgradePath (packageName currentVersion : String)
    (vulnerabilities : List Vulnerability) (availableVersions : List String)
    (osvQuery : String → List Vulnerability) (changelogUrl : Option String) :
    Option UpgradePath :=
  if availableVersions.isEmpty then none
  else
    let fixedVersions := findFixedVersions vulnerabilities availableVersions
    if fixedVersions.isEmpty then none
    else
      match findSafestUpgrade currentVersion fixedVersions with
      | none => none
      | some targetVersion =>
        let newVulnerabilities := osvQuery targetVersion
        match calculateConfidence currentVersion targetVersion fixedVersions with
        | none => none
        | some confidence =>
          some { packageName := packageName
                 currentVersion := currentVersion
                 targetVersion := targetVersion
                 isBreaking := isBreakingUpgrade currentVersion targetVersion
                 fixedVulnerabilities := vulnerabilities.map (fun v => v.id)
                 changelogUrl := changelogUrl
                 confidence := confidence
                 riskScore := calculateRiskScore vulnerabilities newVulnerabilities
                   currentVersion targetVersion }

example : findFixedVersions
    [{ id := "V1", packageName := "p", severity := Severity.high,
       patchedVersions := ["1.0.1", "2.0.0"], source := "osv" }]
    ["1.0.0", "1.0.1", "2.0.0"] = ["1.0.1", "2.0.0"] := by decide
example : findSafestUpgrade "1.0.0" ["1.0.1", "2.0.0"] = some "1.0.1" := by decide
example : findSafestUpgrade "1.0.0" ["2.0.0", "3.0.0"] = some "3.0.0" := by decide
example : findSafestUpgrade "1.5.0" ["1.0.1"] = none := by decide
example : calculateConfidence "1.0.0" "1.0.1" ["1.0.1"] = some Confidence.high := by decide
example : calculateConfidence "1.0.0" "1.5.0" ["1.5.0"] = some Confidence.medium := by decide
example : calculateConfidence "1.0.0" "2.0.0" ["2.0.0"] = some Confidence.low := by decide

/-- Numeric rank of a severity (`severityOrder` in `getHigherSeverity`). -/
def severityOrder : Severity → Nat
  | Severity.critical => 4
  | Severity.high => 3
  | Severity.medium => 2
  | Severity.low => 1

/-- `Scanner.getHigherSeverity`: the first argument wins ties. -/
def getHigherSeverity (severity1 severity2 : Severity) : Severity :=
  if severityOrder severity1 ≥ severityOrder severity2 then severity1 else severity2

/-- JS `||` on an optional number: `0`, like `undefined`, is falsy. -/
def jsOrNum (a b : Option Rat) : Option Rat :=
  match a with
  | some x => if x ≠ 0 then some x else b
  | none => b

/-- JS `||` on an optional string: the empty string, like `undefined`, is
falsy. -/
def jsOrStr (a b : Option String) : Option String :=
  match a with
  | some s => if s ≠ "" then some s else b
  | none => b

/-- The deduplication key of `Scanner.mergeVulnerabilities`:
`packageName + ':' + id`. -/
def vulnKey (v : Vulnerability) : String :=
  v.packageName ++ ":" ++ v.id

/-- The collision branch of `Scanner.mergeVulnerabilities` (part_004 lines
344-360): spread the existing record, take the higher severity, concatenate
reference lists, keep `'osv'` as the source only when the existing record
already carried it (otherwise write `'snyk'`), and fill the optional scalars
from the first truthy side. -/
def mergeRecord (existing snykVuln : Vulnerability) : Vulnerability :=
  { existing with
    severity := getHigherSeverity existing.severity snykVuln.severity
    references := some ((existing.references.getD []) ++ (snykVuln.references.getD []))
    source := if existing.source = "osv" then "osv" else "snyk"
    cvssScore := jsOrNum existing.cvssScore snykVuln.cvssScore
    cvssVector := jsOrStr existing.cvssVector snykVuln.cvssVector
    cveId := jsOrStr existing.cveId snykVuln.cveId }

/-- `Map.set` on an association list: replace in place when the key exists
(JS `Map` keeps the original insertion position), append otherwise. -/
def mapSet (m : List (String × Vulnerability)) (k : String) (v : Vulnerability) :
    List (String × Vulnerability) :=
  if m.any (fun p => p.1 = k) then
    m.map (fun p => if p.1 = k then (k, v) else p)
  else m ++ [(k, v)]

/-- `Map.get`: the value stored at a key, if any. -/
def mapGet (m : List (String × Vulnerability)) (k : String) : Option Vulnerability :=
  (m.find? (fun p => p.1 = k)).map (fun p => p.2)

/-- `Scanner.mergeVulnerabilities` (part_004 lines 329-367): insert the OSV
records (later same-key records replace earlier ones wholesale), then fold in
the Snyk records, merging on key collision; return the map's values in
insertion order. -/
def mergeVulnerabilities (osvVulns snykVulns : List Vulnerability) : List Vulnerability :=
  let m1 := osvVulns.foldl (fun m v => mapSet m (vulnKey v) v) []
  let m2 := snykVulns.foldl (fun m sv =>
    match mapGet m (vulnKey sv) with
    | some existing => mapSet m (vulnKey sv) (mergeRecord existing sv)
    | none => mapSet m (vulnKey sv) sv) m1
  m2.map (fun p => p.2)

/-- `Scanner.createBatches`: slice the list into chunks of `batchSize`
(`batchSize` is the positive literal 20 or 15 at both call sites; a zero
batch size would not terminate in the source either, so it yields `[]`
here). -/
def createBatches (items : List Dependency) (batchSize : Nat) : List (List Dependency) :=
  go items.length items
where
  go : Nat → List Dependency → List (List Dependency)
    | _, [] => []
    | 0, _ => []
    | fuel + 1, l =>
      if batchSize = 0 then []
      else l.take batchSize :: go fuel (l.drop batchSize)

/-- Per-dependency failure recovery: the `.catch(... => [])` attached to each
query promise, which turns any network/HTTP error for that one dependency
into an empty result. -/
def recoverEmpty (result : Except String (List Vulnerability)) : List Vulnerability :=
  match result with
  | Except.ok vs => vs
  | Except.error _ => []

/-- `Scanner.scanDependenciesWithOSV` (part_004 lines 242-279): batches of
20, one OSV query per dependency, each with its own failure recovery; the
per-batch result lists are flattened in order. -/
def scanDependenciesWithOSV (dependencies : List Dependency)
    (query : Dependency → Except String (List Vulnerability)) : List Vulnerability :=
  ((createBatches dependencies 20).map
    (fun batch => (batch.map (fun dep => recoverEmpty (query dep))).flatten)).flatten

/-- `Scanner.scanDependenciesWithSnyk` (part_004 lines 281-319): `[]` when no
Snyk client is configured, otherwise batches of 15 with the same
per-dependency recovery. -/
def scanDependenciesWithSnyk (dependencies : List Dependency)
    (snykClient : Option (Dependency → Except String (List Vulnerability))) : List Vulnerability :=
  match snykClient with
  | none => []
  | some query =>
    ((createBatches dependencies 15).map
      (fun batch => (batch.map (fun dep => recoverEmpty (query dep))).flatten)).flatten

example : (mergeVulnerabilities
    [{ id := "A", packageName := "p", severity := Severity.high, source := "osv" }]
    [{ id := "A", packageName := "p", severity := Severity.critical, source := "snyk" }]).map
    (fun v => v.severity) = [Severity.critical] := by decide
example : (createBatches [⟨"a", "1.0.0", "dependencies"⟩, ⟨"b", "1.0.0", "dependencies"⟩] 1).length = 2 := by decide

/-- Threat categories of `SupplyChainThreat.type`. -/
inductive ThreatType where
  | typosquatting | maliciousScript | suspiciousActivity | compromisedMaintainer
deriving DecidableEq, Repr

/-- A supply-chain threat finding.  The wall-clock `detectedAt` stamp of the
source is omitted (it is `new Date()` at emission time and carries no
decision content). -/
structure SupplyChainThreat where
  ttype : ThreatType
  packageName : String
  severity : Severity
  description : String
  evidence : List String
  recommendations : List String
deriving DecidableEq, Repr

/-- The hardcoded reference set of popular package names
(src/core/detector.ts lines 23-28). -/
def popularPackages : List String :=
  ["lodash", "express", "react", "vue", "angular", "axios", "moment", "request", "underscore",
   "chalk", "commander", "webpack", "babel", "eslint", "prettier", "jest", "mocha", "typescript",
   "react-dom", "prop-types", "redux", "react-router", "next", "nuxt", "gatsby", "vue-router",
   "vuex", "styled-components", "emotion", "material-ui", "ant-design", "bootstrap", "tailwindcss"]

/-- Positions where the two equal-length names differ (technique 1 of
`isTypoSquat`: single character substitution). -/
def countDiffs : List Char → List Char → Nat
  | [], _ => 0
  | _, [] => 0
  | a :: as, b :: bs => (if a = b then 0 else 1) + countDiffs as bs

/-- Technique 2/3 helper: `target` with the character at one of the first
`bound` positions removed equals `candidate` (the source loop runs `i` over
the SHORTER name's indices, so removal of the final character is never
tried). -/
def removalMatches (bound : Nat) (target candidate : List Char) : Bool :=
  (List.range bound).any (fun i => target.take i ++ target.drop (i + 1) = candidate)

/-- Technique 4 helper: swapping one adjacent pair of `candidate` yields
`target`. -/
def swapMatches (candidate target : List Char) : Bool :=
  match candidate.length with
  | 0 => false
  | n + 1 =>
    (List.range n).any (fun i =>
      candidate.take i ++ [candidate.getD (i + 1) ' ', candidate.getD i ' '] ++ candidate.drop (i + 2) = target)

/-- `String.prototype.replace` with a global literal pattern: replace every
non-overlapping occurrence left to right (`fuel` bounds the scan; it is
instantiated with the subject length, which suffices because every step
consumes at least one character). -/
def replaceAllAux (pat rep : List Char) : Nat → List Char → List Char
  | 0, l => l
  | _ + 1, [] => []
  | fuel + 1, c :: cs =>
    if pat ≠ [] ∧ pat.isPrefixOf (c :: cs) then
      rep ++ replaceAllAux pat rep fuel ((c :: cs).drop pat.length)
    else c :: replaceAllAux pat rep fuel cs

/-- Global literal replacement (`candidate.replace(new RegExp(a, g), b)`). -/
def replaceAll (pat rep l : List Char) : List Char :=
  replaceAllAux pat rep l.length l

/-- The visually-confusable pairs of `isTypoSquat` technique 5. -/
def confusionPairs : List (List Char × List Char) :=
  [(['l'], ['1']), (['i'], ['1']), (['o'], ['0']),
   (['r', 'n'], ['m']), (['v', 'v'], ['w']), (['r', 'n'], ['n'])]

/-- `SupplyChainDetector.isTypoSquat` (src/core/detector.ts lines 317-376):
after a length-difference gate of 2, try single substitution, character
omission, character addition, adjacent swap, and confusable-substring
replacement in both directions. -/
def isTypoSquat (candidate target : String) : Bool :=
  let cd := candidate.data
  let td := target.data
  if max (cd.length - td.length) (td.length - cd.length) > 2 then false
  else
    (cd.length = td.length && countDiffs cd td = 1) ||
    (td.length = cd.length + 1 && removalMatches cd.length td cd) ||
    (cd.length = td.length + 1 && removalMatches td.length cd td) ||
    (cd.length = td.length && swapMatches cd td) ||
    confusionPairs.any (fun p =>
      replaceAll p.1 p.2 cd = td || replaceAll p.2 p.1 cd = td)

/-- `SupplyChainDetector.isTyposquattingPackage` (src/core/detector.ts lines
301-315): reference-set members are exempt; otherwise any reference name
matching one technique flags the candidate. -/
def isTyposquattingPackage (packageName : String) : Bool :=
  if popularPackages.contains packageName then false
  else popularPackages.any (fun popular => isTypoSquat packageName popular)

/-- The threat record `detectTyposquatting` pushes for a flagged name. -/
def typosquattingThreat (name : String) : SupplyChainThreat :=
  { ttype := ThreatType.typosquatting
    packageName := name
    severity := Severity.high
    description := "Package name \"" ++ name ++ "\" appears to be a typosquatting attempt targeting a popular package"
    evidence :=
      ["Package name is similar to popular npm packages",
       "One character difference from known popular packages",
       "Unusual naming pattern detected"]
    recommendations :=
      ["Verify this is the intended package",
       "Check package maintainer and download counts",
       "Consider using the official package instead"] }

/-- `SupplyChainDetector.detectTyposquatting` (src/core/detector.ts lines
55-85). -/
def detectTyposquatting (dependencies : List Dependency) : List SupplyChainThreat :=
  dependencies.filterMap (fun dep =>
    if isTyposquattingPackage dep.name then some (typosquattingThreat dep.name) else none)

example : isTyposquattingPackage "expres" = true := by decide
example : isTyposquattingPackage "reaact" = true := by decide
example : isTyposquattingPackage "loda.sh" = true := by decide
example : isTyposquattingPackage "lodash" = false := by decide
example : isTyposquattingPackage "nuxt" = false := by decide

/-- Milliseconds in 24 hours. -/
def dayMs : Int := 24 * 60 * 60 * 1000

/-- `Math.min(...publishTimes)`: the least element; the `[]` case (JS
`Infinity`) is never consulted because the lone-version trigger requires
exactly one recorded time. -/
def oldestPublish : List Int → Int
  | [] => 0
  | t :: ts => ts.foldl min t

/-- The publish times inside the trailing 24-hour window
(`Date.now() - time < 24 * 60 * 60 * 1000`). -/
def recentReleases (publishTimes : List Int) (now : Int) : List Int :=
  publishTimes.filter (fun time => now - time < dayMs)

/-- The rapid-release threat `detectSuspiciousActivity` pushes. -/
def rapidReleaseThreat (name : String) (recentCount totalVersions : Nat) : SupplyChainThreat :=
  { ttype := ThreatType.suspiciousActivity
    packageName := name
    severity := Severity.medium
    description := "Package \"" ++ name ++ "\" has unusually high release activity"
    evidence :=
      [toString recentCount ++ " releases in the last 24 hours",
       "Total versions: " ++ toString totalVersions,
       "This pattern may indicate version bumping attacks"]
    recommendations :=
      ["Investigate recent version changes",
       "Check changelog for suspicious modifications",
       "Monitor package for further unusual activity"] }

/-- The new-package threat `detectSuspiciousActivity` pushes
(`Math.floor(daysSinceFirstPublish)` becomes a flooring integer division). -/
def newPackageThreat (name : String) (daysSinceFirstPublish : Int) : SupplyChainThreat :=
  { ttype := ThreatType.suspiciousActivity
    packageName := name
    severity := Severity.medium
    description := "Package \"" ++ name ++ "\" is very recently published with no version history"
    evidence :=
      ["First published " ++ toString daysSinceFirstPublish ++ " days ago",
       "Only one version available",
       "New packages may be untrusted"]
    recommendations :=
      ["Exercise caution with new packages",
       "Check maintainer history and other packages",
       "Wait for broader adoption before use"] }

/-- The findings `detectSuspiciousActivity` (src/core/detector.ts lines
152-224) emits for one package whose registry `time` map is `timeMap`
(version, epoch-milliseconds pairs): a rapid-release finding when the package
has more than one version and more than 5 publish times fall in the trailing
24-hour window, then a new-package finding when it has exactly one version
published within the last 7 days.  The float comparison
`(now - oldest) / dayMs < 7` is embedded as `now - oldest < 7 * dayMs`. -/
def activityFindings (name : String) (timeMap : List (String × Int)) (now : Int) :
    List SupplyChainThreat :=
  let versions := timeMap.map (fun p => p.1)
  let publishTimes := timeMap.map (fun p => p.2)
  let recent := recentReleases publishTimes now
  (if versions.length > 1 ∧ recent.length > 5 then
     [rapidReleaseThreat name recent.length versions.length]
   else []) ++
  (if now - oldestPublish publishTimes < 7 * dayMs ∧ versions.length = 1 then
     [newPackageThreat name ((now - oldestPublish publishTimes).fdiv dayMs)]
   else [])

/-- `SupplyChainDetector.detectSuspiciousActivity` over a dependency list:
`timeInfo` maps a package name to its registry `time` map; `none` stands both
for a failed metadata fetch (caught and skipped) and for a response without a
`time` field (skipped by the guard). -/
def detectSuspiciousActivity (dependencies : List Dependency)
    (timeInfo : String → Option (List (String × Int))) (now : Int) : List SupplyChainThreat :=
  dependencies.flatMap (fun dep =>
    match timeInfo dep.name with
    | none => []
    | some timeMap => activityFindings dep.name timeMap now)

/-- Tokens of the suspicious-script patterns: a literal character (compared
case-insensitively, for the `i` flag), `\s*`, or `\s+`. -/
inductive PatTok where
  | lit (c : Char)
  | wsStar
  | wsPlus
deriving DecidableEq, Repr

/-- JS `\s` on the ASCII range. -/
def isJsSpace (c : Char) : Bool :=
  c = ' ' || c = '\t' || c = '\n' || c = '\x0d' || c = '\x0b' || c = '\x0c'

/-- Match a token sequence against a prefix of `l`, returning the unconsumed
suffix.  Whitespace tokens are greedy; in every pattern below they are
followed by a non-whitespace literal or the pattern end, so greedy matching
without backtracking is exact. -/
def matchToks : List PatTok → List Char → Option (List Char)
  | [], l => some l
  | PatTok.lit _ :: _, [] => none
  | PatTok.lit c :: ts, x :: l => if x.toLower = c then matchToks ts l else none
  | PatTok.wsStar :: ts, l => matchToks ts (l.dropWhile isJsSpace)
  | PatTok.wsPlus :: _, [] => none
  | PatTok.wsPlus :: ts, x :: l =>
    if isJsSpace x then matchToks ts (l.dropWhile isJsSpace) else none

/-- First match of the token pattern in `l` at or after position `i`
(scanning position by position as the regex engine does); returns the end
position of the match. -/
def firstMatchEnd (toks : List PatTok) : List Char → Nat → Option Nat
  | [], i => match matchToks toks [] with
    | some _ => some i
    | none => none
  | c :: cs, i => match matchToks toks (c :: cs) with
    | some rest => some (i + ((c :: cs).length - rest.length))
    | none => firstMatchEnd toks cs (i + 1)

/-- One `regex.test(s)` call on a global-flag regex: the search starts at the
regex object's `lastIndex`; a hit stores the match end back into `lastIndex`,
a miss (or an out-of-range `lastIndex`) resets it to 0. -/
def regexTestG (toks : List PatTok) (s : List Char) (lastIndex : Nat) : Bool × Nat :=
  if lastIndex > s.length then (false, 0)
  else
    match firstMatchEnd toks (s.drop lastIndex) lastIndex with
    | some e => (true, e)
    | none => (false, 0)

/-- Lowercase literal tokens for a plain string fragment. -/
def litToks (s : String) : List PatTok :=
  s.data.map (fun c => PatTok.lit c.toLower)

/-- The fixed suspicious-pattern list of `detectMaliciousScripts`
(src/core/detector.ts lines 91-107), each with the regex source text used in
the evidence strings.  All fifteen are sequences of literals and whitespace
classes, created fresh per call but shared — global `lastIndex` state
included — across every dependency and version scanned by that call. -/
def suspiciousPatterns : List (String × List PatTok) :=
  [("eval\\s*\\(", litToks "eval" ++ [PatTok.wsStar, PatTok.lit '(']),
   ("Function\\s*\\(", litToks "function" ++ [PatTok.wsStar, PatTok.lit '(']),
   ("child_process", litToks "child_process"),
   ("exec\\s*\\(", litToks "exec" ++ [PatTok.wsStar, PatTok.lit '(']),
   ("spawn\\s*\\(", litToks "spawn" ++ [PatTok.wsStar, PatTok.lit '(']),
   ("curl\\s+", litToks "curl" ++ [PatTok.wsPlus]),
   ("wget\\s+", litToks "wget" ++ [PatTok.wsPlus]),
   ("rm\\s+-rf", litToks "rm" ++ [PatTok.wsPlus] ++ litToks "-rf"),
   ("\\.bashrc", litToks ".bashrc"),
   ("\\.profile", litToks ".profile"),
   ("\\/etc\\/", litToks "/etc/"),
   ("sudo", litToks "sudo"),
   ("chmod\\s+777", litToks "chmod" ++ [PatTok.wsPlus] ++ litToks "777"),
   ("base64", litToks "base64"),
   ("crypto", litToks "crypto")]

/-- Run every pattern (with its current `lastIndex`) against one script
content string, as `suspiciousPatterns.filter(p => p.test(scriptContent))`
does: return the sources of the patterns that matched and the updated
`lastIndex` states. -/
def runPatterns : List (String × List PatTok) → List Nat → List Char →
    List String × List Nat
  | [], _, _ => ([], [])
  | _ :: _, [], _ => ([], [])
  | (src, toks) :: ps, st :: sts, content =>
    let r := regexTestG toks content st
    let rest := runPatterns ps sts content
    ((if r.1 then [src] else []) ++ rest.1, r.2 :: rest.2)

/-- The threat record `detectMaliciousScripts` pushes for one offending
version. -/
def maliciousScriptThreat (name version : String) (matchedSources : List String) :
    SupplyChainThreat :=
  { ttype := ThreatType.maliciousScript
    packageName := name
    severity := Severity.critical
    description := "Package \"" ++ name ++ "\" contains suspicious install scripts"
    evidence :=
      ["Found suspicious patterns in install scripts"] ++
      matchedSources.map (fun s => "Pattern: " ++ s) ++
      ["Version: " ++ version]
    recommendations :=
      ["Review package source code immediately",
       "Check package maintainer reputation",
       "Consider alternative packages",
       "Audit all dependencies that use this package"] }

/-- Scan the versions of one package in registry order: join each version's
script bodies with single spaces (`Object.values(scripts).join(' ')`), test
the patterns, and emit one critical threat per version with at least one
match; the pattern states thread through. -/
def scanVersions (name : String) : List (String × List (String × String)) → List Nat →
    List SupplyChainThreat × List Nat
  | [], states => ([], states)
  | (version, scripts) :: rest, states =>
    let content := (String.intercalate " " (scripts.map (fun p => p.2))).data
    let r := runPatterns suspiciousPatterns states content
    let tail := scanVersions name rest r.2
    ((if r.1.isEmpty then [] else [maliciousScriptThreat name version r.1]) ++ tail.1, tail.2)

/-- `SupplyChainDetector.detectMaliciousScripts` (src/core/detector.ts lines
87-150) over a dependency list.  `registry` maps a package name to its
per-version install-script tables (`none` models both a failed metadata
fetch, caught and skipped, and a response without `versions`).  The fifteen
regex objects are created once per call, so their `lastIndex` state carries
over from one scanned version and dependency to the next. -/
def detectMaliciousScripts (dependencies : List Dependency)
    (registry : String → Option (List (String × List (String × String)))) :
    List SupplyChainThreat :=
  go dependencies (suspiciousPatterns.map (fun _ => 0))
where
  go : List Dependency → List Nat → List SupplyChainThreat
    | [], _ => []
    | dep :: deps, states =>
      match registry dep.name with
      | none => go deps states
      | some versions =>
        let r := scanVersions dep.name versions states
        r.1 ++ go deps r.2

example : (activityFindings "p" [("1.0.0", 0), ("1.0.1", 1), ("1.0.2", 2),
    ("1.0.3", 3), ("1.0.4", 4), ("1.0.5", 5)] 6).length = 1 := by decide
example : activityFindings "p" [("1.0.0", 0), ("1.0.1", 1), ("1.0.2", 2),
    ("1.0.3", 3)] 4 = [] := by decide
example : (activityFindings "p" [("1.0.0", 0)] 5).length = 1 := by decide
example : (regexTestG (litToks "eval" ++ [PatTok.wsStar, PatTok.lit '(']) "eval(x)".data 0) = (true, 5) := by decide
example : (regexTestG (litToks "eval" ++ [PatTok.wsStar, PatTok.lit '(']) "eval(x)".data 5) = (false, 0) := by decide

/-- `preIdLt` is irreflexive. -/
lemma preIdLt_self (a : PreId) : preIdLt a a = false := by
  cases a <;> simp [preIdLt]

/-- `preIdLt` is transitive. -/
lemma preIdLt_trans {a b c : PreId} (h1 : preIdLt a b = true) (h2 : preIdLt b c = true) :
    preIdLt a c = true := by
  cases a <;> cases b <;> cases c <;>
    simp only [preIdLt, decide_eq_true_eq] at h1 h2 ⊢ <;>
    first
      | rfl
      | exact absurd h1 (by decide)
      | exact absurd h2 (by decide)
      | omega
      | exact lt_trans h1 h2

/-- Two identifiers neither of which is below the other are equal. -/
lemma preIdLt_connex {a b : PreId} (h1 : preIdLt a b = false) (h2 : preIdLt b a = false) :
    a = b := by
  cases a <;> cases b <;>
    simp only [preIdLt, decide_eq_false_iff_not] at h1 h2 <;>
    first
      | exact absurd h1 (by decide)
      | exact absurd h2 (by decide)
      | exact congrArg PreId.num (by omega)
      | exact congrArg PreId.str (le_antisymm (not_lt.mp h2) (not_lt.mp h1))

/-- `preListLt` is irreflexive. -/
lemma preListLt_self : ∀ l, preListLt l l = false
  | [] => rfl
  | a :: as => by simp [preListLt, preIdLt_self, preListLt_self as]

/-- `preListLt` is transitive. -/
lemma preListLt_trans : ∀ (x y z : List PreId), preListLt x y = true →
    preListLt y z = true → preListLt x z = true
  | [], [], _, h1, _ => absurd h1 (by simp [preListLt])
  | [], _ :: _, [], _, h2 => absurd h2 (by simp [preListLt])
  | [], _ :: _, _ :: _, _, _ => rfl
  | _ :: _, [], _, h1, _ => absurd h1 (by simp [preListLt])
  | _ :: _, _ :: _, [], _, h2 => absurd h2 (by simp [preListLt])
  | a :: as, b :: bs, c :: cs, h1, h2 => by
    simp only [preListLt, Bool.or_eq_true, Bool.and_eq_true, beq_iff_eq] at h1 h2 ⊢
    rcases h1 with h1 | ⟨e1, h1⟩
    · rcases h2 with h2 | ⟨e2, h2⟩
      · exact Or.inl (preIdLt_trans h1 h2)
      · exact Or.inl (by rw [← e2]; exact h1)
    · rcases h2 with h2 | ⟨e2, h2⟩
      · exact Or.inl (by rw [e1]; exact h2)
      · exact Or.inr ⟨e1.trans e2, preListLt_trans as bs cs h1 h2⟩

/-- Two identifier lists neither of which is below the other are equal. -/
lemma preListLt_connex : ∀ (x y : List PreId), preListLt x y = false →
    preListLt y x = false → x = y
  | [], [], _, _ => rfl
  | [], _ :: _, h1, _ => by simp [preListLt] at h1
  | _ :: _, [], _, h2 => by simp [preListLt] at h2
  | a :: as, b :: bs, h1, h2 => by
    simp only [preListLt, Bool.or_eq_false_iff, Bool.and_eq_false_iff, beq_iff_eq,
      beq_eq_false_iff_ne, ne_eq] at h1 h2
    have hab : a = b := preIdLt_connex h1.1 h2.1
    subst hab
    have h1' : preListLt as bs = false := by
      rcases h1.2 with h | h
      · exact absurd rfl h
      · exact h
    have h2' : preListLt bs as = false := by
      rcases h2.2 with h | h
      · exact absurd rfl h
      · exact h
    rw [preListLt_connex as bs h1' h2']

/-- `preLt` is irreflexive. -/
lemma preLt_self (x : List PreId) : preLt x x = false := by
  cases x with
  | nil => rfl
  | cons a as => simp [preLt, preListLt_self]

/-- `preLt` is transitive. -/
lemma preLt_trans {x y z : List PreId} (h1 : preLt x y = true) (h2 : preLt y z = true) :
    preLt x z = true := by
  cases x with
  | nil => simp [preLt] at h1
  | cons a as =>
    cases y with
    | nil => simp [preLt] at h2
    | cons b bs =>
      cases z with
      | nil => simp [preLt]
      | cons c cs =>
        simp only [preLt] at h1 h2 ⊢
        exact preListLt_trans _ _ _ h1 h2

/-- Two prerelease lists neither of which is below the other are equal. -/
lemma preLt_connex {x y : List PreId} (h1 : preLt x y = false) (h2 : preLt y x = false) :
    x = y := by
  cases x with
  | nil =>
    cases y with
    | nil => rfl
    | cons b bs => simp [preLt] at h2
  | cons a as =>
    cases y with
    | nil => simp [preLt] at h1
    | cons b bs =>
      simp only [preLt] at h1 h2
      exact preListLt_connex _ _ h1 h2

/-- `vlt` as a proposition. -/
lemma vlt_iff {a b : Version} : vlt a b = true ↔
    (a.major < b.major ∨ (a.major = b.major ∧ (a.minor < b.minor ∨ (a.minor = b.minor ∧
      (a.patch < b.patch ∨ (a.patch = b.patch ∧ preLt a.prerelease b.prerelease = true)))))) := by
  simp [vlt, Bool.or_eq_true, Bool.and_eq_true, decide_eq_true_eq, beq_iff_eq]

/-- `vlt` is irreflexive. -/
lemma vlt_self (a : Version) : vlt a a = false := by
  simp [vlt, preLt_self]

/-- `vlt` is transitive. -/
lemma vlt_trans {a b c : Version} (h1 : vlt a b = true) (h2 : vlt b c = true) :
    vlt a c = true := by
  rw [vlt_iff] at h1 h2 ⊢
  rcases h1 with h1 | ⟨e1, h1 | ⟨e2, h1 | ⟨e3, h1⟩⟩⟩ <;>
    rcases h2 with k1 | ⟨f1, k1 | ⟨f2, k1 | ⟨f3, k1⟩⟩⟩ <;>
    first
    | exact Or.inl (by omega)
    | exact Or.inr ⟨by omega, Or.inl (by omega)⟩
    | exact Or.inr ⟨by omega, Or.inr ⟨by omega, Or.inl (by omega)⟩⟩
    | exact Or.inr ⟨by omega, Or.inr ⟨by omega, Or.inr ⟨by omega, preLt_trans h1 k1⟩⟩⟩

/-- Two versions neither of which is below the other are equal. -/
lemma vlt_connex {a b : Version} (h1 : vlt a b = false) (h2 : vlt b a = false) : a = b := by
  obtain ⟨am, an, ap, ar⟩ := a
  obtain ⟨bm, bn, bp, br⟩ := b
  have n1 : ¬ (vlt ⟨am, an, ap, ar⟩ ⟨bm, bn, bp, br⟩ = true) := by simp [h1]
  have n2 : ¬ (vlt ⟨bm, bn, bp, br⟩ ⟨am, an, ap, ar⟩ = true) := by simp [h2]
  rw [vlt_iff] at n1 n2
  push_neg at n1 n2
  simp only at n1 n2
  have em : am = bm := by omega
  obtain ⟨_, n1⟩ := n1
  obtain ⟨_, n2⟩ := n2
  specialize n1 em
  specialize n2 em.symm
  have en : an = bn := by omega
  obtain ⟨_, n1⟩ := n1
  obtain ⟨_, n2⟩ := n2
  specialize n1 en
  specialize n2 en.symm
  have ep : ap = bp := by omega
  obtain ⟨_, n1⟩ := n1
  obtain ⟨_, n2⟩ := n2
  specialize n1 ep
  specialize n2 ep.symm
  have er : ar = br :=
    preLt_connex (Bool.not_eq_true _ ▸ n1) (Bool.not_eq_true _ ▸ n2)
  rw [em, en, ep, er]

/-- From `y < z` and `¬(x < z)` conclude `¬(x < y)` (the asymmetric
combination used in the fold invariant). -/
lemma vlt_false_of_lt_le {x y z : Version} (h1 : vlt y z = true) (h2 : vlt x z = false) :
    vlt x y = false := by
  cases hxy : vlt x y
  · rfl
  · have hxz := vlt_trans hxy h1
    rw [hxz] at h2
    cases h2

/-- `vlt a b = false` reads `b ≤ a`; that relation is transitive. -/
lemma vlt_trans_false {x y z : Version} (h1 : vlt x y = false) (h2 : vlt y z = false) :
    vlt x z = false := by
  cases hxz : vlt x z
  · rfl
  · exfalso
    cases hyx : vlt y x
    · have hxy := vlt_connex h1 hyx
      rw [hxy] at hxz
      rw [hxz] at h2
      cases h2
    · have hyz := vlt_trans hyx hxz
      rw [hyz] at h2
      cases h2

/-- `maxVerStep` when the new entry does not parse. -/
lemma maxVerStep_noparse {v : String} (acc : Option (String × Version))
    (h : parseVersion v = none) : maxVerStep acc v = acc := by
  simp [maxVerStep, h]

/-- `maxVerStep` skips a prerelease entry (nothing with a prerelease
satisfies the star range). -/
lemma maxVerStep_pre {v : String} {pv : Version} (acc : Option (String × Version))
    (h : parseVersion v = some pv) (hp : pv.prerelease ≠ []) : maxVerStep acc v = acc := by
  have : pv.prerelease.isEmpty = false := by
    cases hx : pv.prerelease.isEmpty
    · rfl
    · exact absurd (List.isEmpty_iff.mp hx) hp
  simp [maxVerStep, h, this]

/-- `maxVerStep` on an empty accumulator and a release entry. -/
lemma maxVerStep_none {v : String} {pv : Version} (h : parseVersion v = some pv)
    (hrel : pv.prerelease = []) : maxVerStep none v = some (v, pv) := by
  simp [maxVerStep, h, hrel]

/-- `maxVerStep` replaces a strictly smaller best with a release entry. -/
lemma maxVerStep_lt {v b : String} {pv pb : Version} (h : parseVersion v = some pv)
    (hrel : pv.prerelease = []) (hlt : vlt pb pv = true) :
    maxVerStep (some (b, pb)) v = some (v, pv) := by
  simp [maxVerStep, h, hrel, hlt]

/-- `maxVerStep` keeps a best that is not strictly smaller. -/
lemma maxVerStep_ge {v b : String} {pv pb : Version} (h : parseVersion v = some pv)
    (hrel : pv.prerelease = []) (hlt : vlt pb pv = false) :
    maxVerStep (some (b, pb)) v = some (b, pb) := by
  simp [maxVerStep, h, hrel, hlt]

/-- Fold invariant for `maxVerStep`: a `some` result parses to its recorded
version, is a release, originates in the accumulator or the list, and
dominates both the accumulator and every parseable RELEASE element of the
list (prerelease elements are skipped and therefore unconstrained). -/
lemma foldl_maxVerStep_spec :
    ∀ (l : List String) (acc : Option (String × Version)),
      (∀ b pb, acc = some (b, pb) → parseVersion b = some pb ∧ pb.prerelease = []) →
      ∀ m pm, l.foldl maxVerStep acc = some (m, pm) →
        (parseVersion m = some pm ∧ pm.prerelease = []) ∧
        (acc = some (m, pm) ∨ m ∈ l) ∧
        (∀ b pb, acc = some (b, pb) → vlt pm pb = false) ∧
        (∀ v ∈ l, ∀ pv, parseVersion v = some pv → pv.prerelease = [] → vlt pm pv = false)
  | [], acc, hacc, m, pm, h => by
    simp only [List.foldl_nil] at h
    refine ⟨hacc m pm h, Or.inl h, ?_, by simp⟩
    intro b pb hb
    rw [h] at hb
    cases hb
    exact vlt_self pm
  | v :: l', acc, hacc, m, pm, h => by
    simp only [List.foldl_cons] at h
    cases hpv : parseVersion v with
    | none =>
      rw [maxVerStep_noparse acc hpv] at h
      obtain ⟨hparse, horigin, haccb, hlb⟩ := foldl_maxVerStep_spec l' acc hacc m pm h
      refine ⟨hparse, ?_, haccb, ?_⟩
      · rcases horigin with h1 | h1
        · exact Or.inl h1
        · exact Or.inr (List.mem_cons_of_mem _ h1)
      · intro w hw pw hpw hwrel
        rcases List.mem_cons.mp hw with hw1 | hw1
        · subst hw1; rw [hpv] at hpw; cases hpw
        · exact hlb w hw1 pw hpw hwrel
    | some pv =>
      by_cases hrel : pv.prerelease = []
      · cases hav : acc with
        | none =>
          rw [hav, maxVerStep_none hpv hrel] at h
          have hacc' : ∀ b pb, (some (v, pv) : Option (String × Version)) = some (b, pb) →
              parseVersion b = some pb ∧ pb.prerelease = [] := by
            intro b pb hb
            cases hb
            exact ⟨hpv, hrel⟩
          obtain ⟨hparse, horigin, haccb, hlb⟩ :=
            foldl_maxVerStep_spec l' (some (v, pv)) hacc' m pm h
          refine ⟨hparse, ?_, ?_, ?_⟩
          · rcases horigin with h1 | h1
            · cases h1
              exact Or.inr (List.mem_cons_self _ _)
            · exact Or.inr (List.mem_cons_of_mem _ h1)
          · intro b pb hb
            cases hb
          · intro w hw pw hpw hwrel
            rcases List.mem_cons.mp hw with hw1 | hw1
            · subst hw1
              rw [hpv] at hpw
              cases hpw
              exact haccb _ _ rfl
            · exact hlb w hw1 pw hpw hwrel
        | some p =>
          cases p with
          | mk b0 pb0 =>
            obtain ⟨hb0, hb0rel⟩ := hacc b0 pb0 hav
            cases hc : vlt pb0 pv with
            | true =>
              rw [hav, maxVerStep_lt hpv hrel hc] at h
              have hacc' : ∀ b pb, (some (v, pv) : Option (String × Version)) = some (b, pb) →
                  parseVersion b = some pb ∧ pb.prerelease = [] := by
                intro b pb hb
                cases hb
                exact ⟨hpv, hrel⟩
              obtain ⟨hparse, horigin, haccb, hlb⟩ :=
                foldl_maxVerStep_spec l' (some (v, pv)) hacc' m pm h
              have hpmpv : vlt pm pv = false := haccb v pv rfl
              refine ⟨hparse, ?_, ?_, ?_⟩
              · rcases horigin with h1 | h1
                · cases h1
                  exact Or.inr (List.mem_cons_self _ _)
                · exact Or.inr (List.mem_cons_of_mem _ h1)
              · intro b pb hb
                cases hb
                exact vlt_false_of_lt_le hc hpmpv
              · intro w hw pw hpw hwrel
                rcases List.mem_cons.mp hw with hw1 | hw1
                · subst hw1
                  rw [hpv] at hpw
                  cases hpw
                  exact hpmpv
                · exact hlb w hw1 pw hpw hwrel
            | false =>
              rw [hav, maxVerStep_ge hpv hrel hc] at h
              have hacc' : ∀ b pb, (some (b0, pb0) : Option (String × Version)) = some (b, pb) →
                  parseVersion b = some pb ∧ pb.prerelease = [] := by
                intro b pb hb
                cases hb
                exact ⟨hb0, hb0rel⟩
              obtain ⟨hparse, horigin, haccb, hlb⟩ :=
                foldl_maxVerStep_spec l' (some (b0, pb0)) hacc' m pm h
              have hpmpb : vlt pm pb0 = false := haccb b0 pb0 rfl
              refine ⟨hparse, ?_, ?_, ?_⟩
              · rcases horigin with h1 | h1
                · cases h1
                  exact Or.inl rfl
                · exact Or.inr (List.mem_cons_of_mem _ h1)
              · intro b pb hb
                cases hb
                exact hpmpb
              · intro w hw pw hpw hwrel
                rcases List.mem_cons.mp hw with hw1 | hw1
                · subst hw1
                  rw [hpv] at hpw
                  cases hpw
                  exact vlt_trans_false hpmpb hc
                · exact hlb w hw1 pw hpw hwrel
      · rw [maxVerStep_pre acc hpv hrel] at h
        obtain ⟨hparse, horigin, haccb, hlb⟩ := foldl_maxVerStep_spec l' acc hacc m pm h
        refine ⟨hparse, ?_, haccb, ?_⟩
        · rcases horigin with h1 | h1
          · exact Or.inl h1
          · exact Or.inr (List.mem_cons_of_mem _ h1)
        · intro w hw pw hpw hwrel
          rcases List.mem_cons.mp hw with hw1 | hw1
          · subst hw1
            rw [hpv] at hpw
            cases hpw
            exact absurd hwrel hrel
          · exact hlb w hw1 pw hpw hwrel

/-- `maxVersion` returns a RELEASE member of the list that no parseable
release member strictly exceeds; prerelease members are skipped and may
exceed it. -/
lemma maxVersion_spec (versions : List String) (m : String)
    (h : maxVersion versions = some m) :
    m ∈ versions ∧ ∃ pm, parseVersion m = some pm ∧ pm.prerelease = [] ∧
      ∀ v ∈ versions, ∀ pv, parseVersion v = some pv → pv.prerelease = [] →
        vlt pm pv = false := by
  unfold maxVersion at h
  cases hf : versions.foldl maxVerStep none with
  | none => rw [hf] at h; cases h
  | some p =>
    rw [hf] at h
    cases p with
    | mk m0 pm0 =>
      cases h
      obtain ⟨⟨hp, hprel⟩, ho, _, hb⟩ :=
        foldl_maxVerStep_spec versions none (by intro b pb hb; cases hb) m0 pm0 hf
      rcases ho with h1 | h1
      · cases h1
      · exact ⟨h1, pm0, hp, hprel, hb⟩

/-- A string that `greaterThan` accepts on the left parses. -/
lemma parse_of_greaterThan_left {a b : String} (h : greaterThan a b = true) :
    ∃ pa, parseVersion a = some pa := by
  unfold greaterThan at h
  cases hpa : parseVersion a with
  | none => rw [hpa] at h; cases hpb : parseVersion b <;> rw [hpb] at h <;> cases h
  | some pa => exact ⟨pa, rfl⟩

/-- A string that `greaterThan` accepts on the right parses. -/
lemma parse_of_greaterThan_right {a b : String} (h : greaterThan a b = true) :
    ∃ pb, parseVersion b = some pb := by
  unfold greaterThan at h
  cases hpa : parseVersion a with
  | none => rw [hpa] at h; cases h
  | some pa =>
    rw [hpa] at h
    cases hpb : parseVersion b with
    | none => rw [hpb] at h; cases h
    | some pb => exact ⟨pb, rfl⟩

/-- What `findSafestUpgrade` guarantees about a returned target: it is a
fixed version strictly above the current one, it is a RELEASE version (the
underlying `maxSatisfying(.., star)` never returns a prerelease); whenever a
non-breaking candidate exists the target is non-breaking and dominates every
non-breaking RELEASE candidate; and when every candidate is breaking the
target dominates every RELEASE candidate.  Prerelease candidates pass the
`greaterThan` filter into the candidate sets but are invisible to the max
selection, so nothing bounds them. -/
lemma findSafestUpgrade_spec (cur : String) (fixed : List String) (t : String)
    (h : findSafestUpgrade cur fixed = some t) :
    t ∈ fixed ∧ greaterThan t cur = true ∧
    (∃ pt, parseVersion t = some pt ∧ pt.prerelease = []) ∧
    (∀ v, v ∈ fixed → greaterThan v cur = true → isBreakingUpgrade cur v = false →
      isBreakingUpgrade cur t = false ∧
      ∀ pv, parseVersion v = some pv → pv.prerelease = [] → greaterThan v t = false) ∧
    ((∀ v, v ∈ fixed → greaterThan v cur = true → isBreakingUpgrade cur v = true) →
      ∀ v, v ∈ fixed → greaterThan v cur = true →
        ∀ pv, parseVersion v = some pv → pv.prerelease = [] → greaterThan v t = false) := by
  unfold findSafestUpgrade at h
  set valid := fixed.filter (fun version => greaterThan version cur) with hvalid
  by_cases hempty : valid.isEmpty
  · simp only [hempty, if_true] at h; cases h
  · simp only [hempty, if_false] at h
    set nonBreaking := valid.filter (fun version => !(isBreakingUpgrade cur version)) with hnb
    by_cases hnbe : nonBreaking.isEmpty
    · simp only [hnbe, Bool.not_true, if_false] at h
      obtain ⟨hmem, pt, hpt, hptrel, hub⟩ := maxVersion_spec valid t h
      have hmemf : t ∈ fixed ∧ greaterThan t cur = true := by
        have := List.mem_filter.mp (hvalid ▸ hmem)
        exact ⟨this.1, this.2⟩
      refine ⟨hmemf.1, hmemf.2, ⟨pt, hpt, hptrel⟩, ?_, ?_⟩
      · intro v hv hgt hbr
        exfalso
        have hvv : v ∈ valid := hvalid ▸ List.mem_filter.mpr ⟨hv, hgt⟩
        have hvnb : v ∈ nonBreaking := hnb ▸ List.mem_filter.mpr ⟨hvv, by rw [hbr]; rfl⟩
        rw [List.isEmpty_iff] at hnbe
        rw [hnbe] at hvnb
        cases hvnb
      · intro _ v hv hgt pv hpv hvrel
        have hvv : v ∈ valid := hvalid ▸ List.mem_filter.mpr ⟨hv, hgt⟩
        have := hub v hvv pv hpv hvrel
        simp only [greaterThan, hpv, hpt]
        exact this
    · simp only [hnbe, Bool.not_false, if_true] at h
      obtain ⟨hmem, pt, hpt, hptrel, hub⟩ := maxVersion_spec nonBreaking t h
      have hmv : t ∈ valid ∧ (!(isBreakingUpgrade cur t)) = true :=
        List.mem_filter.mp (hnb ▸ hmem)
      have hmf : t ∈ fixed ∧ greaterThan t cur = true := by
        have := List.mem_filter.mp (hvalid ▸ hmv.1)
        exact ⟨this.1, this.2⟩
      have hbrt : isBreakingUpgrade cur t = false := by
        have := hmv.2
        cases hx : isBreakingUpgrade cur t
        · rfl
        · rw [hx] at this; cases this
      refine ⟨hmf.1, hmf.2, ⟨pt, hpt, hptrel⟩, ?_, ?_⟩
      · intro v hv hgt hbr
        have hvv : v ∈ valid := hvalid ▸ List.mem_filter.mpr ⟨hv, hgt⟩
        have hvnb : v ∈ nonBreaking := hnb ▸ List.mem_filter.mpr ⟨hvv, by rw [hbr]; rfl⟩
        refine ⟨hbrt, ?_⟩
        intro pv hpv hvrel
        have := hub v hvnb pv hpv hvrel
        simp only [greaterThan, hpv, hpt]
        exact this
      · intro hall
        exfalso
        have := hall t hmf.1 hmf.2
        rw [hbrt] at this
        cases this

/-- Destructuring a successful `calculateUpgradePath`: the safest-upgrade and
confidence computations succeeded and the returned record's fields are as
assembled at src/core/updater.ts lines 52-61. -/
lemma calculateUpgradePath_some {pkg cur : String} {vulns : List Vulnerability}
    {avail : List String} {q : String → List Vulnerability} {cl : Option String}
    {p : UpgradePath} (h : calculateUpgradePath pkg cur vulns avail q cl = some p) :
    ∃ t conf,
      findSafestUpgrade cur (findFixedVersions vulns avail) = some t ∧
      calculateConfidence cur t (findFixedVersions vulns avail) = some conf ∧
      p.currentVersion = cur ∧ p.targetVersion = t ∧ p.confidence = conf ∧
      p.fixedVulnerabilities = vulns.map (fun v => v.id) := by
  unfold calculateUpgradePath at h
  split at h
  · cases h
  · dsimp only at h
    split at h
    · cases h
    · split at h
      · cases h
      · rename_i t hsafe
        split at h
        · cases h
        · rename_i conf hconf
          cases h
          exact ⟨t, conf, hsafe, hconf, rfl, rfl, rfl, rfl⟩

/-- C1 counterexample: over current version 1.0.0 the patched, published,
non-breaking candidates 1.0.1 and 1.1.0-rc.1 both pass the strictly-greater
filter (`semver.gt` orders prereleases normally), yet the resolver returns
1.0.1 — not the highest non-breaking candidate, because
`maxVersion = semver.maxSatisfying(.., star)` never selects a prerelease. -/
theorem monotonicity_highest_counterexample :
    (calculateUpgradePath "demo" "1.0.0"
        [{ id := "V1", packageName := "demo", severity := Severity.high,
           patchedVersions := ["1.0.1", "1.1.0-rc.1"], source := "osv" }]
        ["1.0.0", "1.0.1", "1.1.0-rc.1"] (fun _ => []) none).map
      (fun p => p.targetVersion) = some "1.0.1" ∧
    "1.1.0-rc.1" ∈ findFixedVersions
      [{ id := "V1", packageName := "demo", severity := Severity.high,
         patchedVersions := ["1.0.1", "1.1.0-rc.1"], source := "osv" }]
      ["1.0.0", "1.0.1", "1.1.0-rc.1"] ∧
    greaterThan "1.1.0-rc.1" "1.0.0" = true ∧
    isBreakingUpgrade "1.0.0" "1.1.0-rc.1" = false ∧
    greaterThan "1.1.0-rc.1" "1.0.1" = true := by decide

/-- C1 amended: an upgrade path returned by `calculateUpgradePath` always
has `targetVersion` strictly above `currentVersion`, and whenever
non-breaking patched candidates above the current version exist, the target
is the highest RELEASE (non-prerelease) non-breaking candidate: it is itself
a non-breaking release candidate, and no non-breaking release candidate
strictly exceeds it.  A prerelease candidate passes the strictly-greater
filter but is skipped by the `maxSatisfying(.., star)` selection, so it is
never chosen and may exceed the chosen target. -/
theorem upgrade_monotonicity_release (pkg cur : String) (vulns : List Vulnerability)
    (avail : List String) (q : String → List Vulnerability) (cl : Option String)
    (p : UpgradePath) (h : calculateUpgradePath pkg cur vulns avail q cl = some p) :
    p.currentVersion = cur ∧ greaterThan p.targetVersion cur = true ∧
    (∃ pt, parseVersion p.targetVersion = some pt ∧ pt.prerelease = []) ∧
    ∀ v, v ∈ findFixedVersions vulns avail → greaterThan v cur = true →
      isBreakingUpgrade cur v = false →
      isBreakingUpgrade cur p.targetVersion = false ∧
      p.targetVersion ∈ findFixedVersions vulns avail ∧
      (∀ pv, parseVersion v = some pv → pv.prerelease = [] →
        greaterThan v p.targetVersion = false) := by
  obtain ⟨t, conf, hsafe, _, hcur, htgt, _, _⟩ := calculateUpgradePath_some h
  obtain ⟨hmem, hgt, hrel, hnonbr, _⟩ := findSafestUpgrade_spec cur _ t hsafe
  rw [hcur, htgt]
  refine ⟨rfl, hgt, hrel, ?_⟩
  intro v hv hg hb
  obtain ⟨hbt, hvt⟩ := hnonbr v hv hg hb
  exact ⟨hbt, hmem, hvt⟩

/-- The concrete upgrade path of the C1 witness scenario. -/
def witnessPathC1 : UpgradePath :=
  { packageName := "demo", currentVersion := "1.0.0", targetVersion := "1.2.0",
    isBreaking := false, fixedVulnerabilities := ["V1"], changelogUrl := none,
    confidence := Confidence.medium, riskScore := 2 }

/-- C1 witness: with patched versions 1.0.1 and 1.2.0 both published and
non-breaking over 1.0.0, the resolver returns 1.2.0, a release strictly
above the current version that no non-breaking release candidate exceeds. -/
theorem upgrade_monotonicity_release_witness :
    witnessPathC1.currentVersion = "1.0.0" ∧
    greaterThan witnessPathC1.targetVersion "1.0.0" = true ∧
    (∃ pt, parseVersion witnessPathC1.targetVersion = some pt ∧ pt.prerelease = []) ∧
    ∀ v, v ∈ findFixedVersions
        [{ id := "V1", packageName := "demo", severity := Severity.high,
           patchedVersions := ["1.0.1", "1.2.0"], source := "osv" }]
        ["1.0.0", "1.0.1", "1.2.0"] →
      greaterThan v "1.0.0" = true → isBreakingUpgrade "1.0.0" v = false →
      isBreakingUpgrade "1.0.0" witnessPathC1.targetVersion = false ∧
      witnessPathC1.targetVersion ∈ findFixedVersions
        [{ id := "V1", packageName := "demo", severity := Severity.high,
           patchedVersions := ["1.0.1", "1.2.0"], source := "osv" }]
        ["1.0.0", "1.0.1", "1.2.0"] ∧
      (∀ pv, parseVersion v = some pv → pv.prerelease = [] →
        greaterThan v witnessPathC1.targetVersion = false) :=
  upgrade_monotonicity_release "demo" "1.0.0"
    [{ id := "V1", packageName := "demo", severity := Severity.high,
       patchedVersions := ["1.0.1", "1.2.0"], source := "osv" }]
    ["1.0.0", "1.0.1", "1.2.0"] (fun _ => []) none witnessPathC1 (by decide)

/-- C2 counterexample: with current version 1.0.0 and breaking patched
candidates 2.0.0 and 3.0.0 (no non-breaking candidate), the resolver in
effect (the second `findSafestUpgrade` definition) returns 3.0.0, not the
lowest breaking candidate 2.0.0. -/
theorem breaking_lowest_counterexample :
    (calculateUpgradePath "demo" "1.0.0"
        [{ id := "V1", packageName := "demo", severity := Severity.high,
           patchedVersions := ["2.0.0", "3.0.0"], source := "osv" }]
        ["1.0.0", "2.0.0", "3.0.0"] (fun _ => []) none).map (fun p => p.targetVersion) =
      some "3.0.0" ∧
    "2.0.0" ∈ findFixedVersions
      [{ id := "V1", packageName := "demo", severity := Severity.high,
         patchedVersions := ["2.0.0", "3.0.0"], source := "osv" }]
      ["1.0.0", "2.0.0", "3.0.0"] ∧
    greaterThan "2.0.0" "1.0.0" = true ∧
    isBreakingUpgrade "1.0.0" "2.0.0" = true ∧
    isBreakingUpgrade "1.0.0" "3.0.0" = true ∧
    greaterThan "3.0.0" "2.0.0" = true := by decide

/-- C2 amended: when every patched candidate strictly above the current
version is breaking, the returned target is the HIGHEST such breaking
candidate among the RELEASE (non-prerelease) candidates — the
runtime-effective second `findSafestUpgrade` falls back to
`maxVersion(validUpgrades)`, which never selects (or bounds) a prerelease —
not the lowest candidate. -/
theorem breaking_fallback_highest_release (pkg cur : String) (vulns : List Vulnerability)
    (avail : List String) (q : String → List Vulnerability) (cl : Option String)
    (p : UpgradePath) (h : calculateUpgradePath pkg cur vulns avail q cl = some p)
    (hall : ∀ v, v ∈ findFixedVersions vulns avail → greaterThan v cur = true →
      isBreakingUpgrade cur v = true) :
    isBreakingUpgrade cur p.targetVersion = true ∧
    p.targetVersion ∈ findFixedVersions vulns avail ∧
    greaterThan p.targetVersion cur = true ∧
    (∃ pt, parseVersion p.targetVersion = some pt ∧ pt.prerelease = []) ∧
    ∀ v, v ∈ findFixedVersions vulns avail → greaterThan v cur = true →
      ∀ pv, parseVersion v = some pv → pv.prerelease = [] →
        greaterThan v p.targetVersion = false := by
  obtain ⟨t, conf, hsafe, _, _, htgt, _, _⟩ := calculateUpgradePath_some h
  obtain ⟨hmem, hgt, hrel, _, hallspec⟩ := findSafestUpgrade_spec cur _ t hsafe
  rw [htgt]
  exact ⟨hall t hmem hgt, hmem, hgt, hrel, hallspec hall⟩

/-- In the breaking fallback, too, a prerelease candidate is never selected:
with breaking candidates 2.0.0 and 3.0.0-alpha over 1.0.0 the resolver
returns 2.0.0, the highest breaking RELEASE candidate. -/
example :
    (calculateUpgradePath "demo" "1.0.0"
        [{ id := "V1", packageName := "demo", severity := Severity.high,
           patchedVersions := ["2.0.0", "3.0.0-alpha"], source := "osv" }]
        ["1.0.0", "2.0.0", "3.0.0-alpha"] (fun _ => []) none).map
      (fun p => p.targetVersion) = some "2.0.0" ∧
    greaterThan "3.0.0-alpha" "2.0.0" = true := by decide

/-- The concrete upgrade path of the C2 witness scenario. -/
def witnessPathC2 : UpgradePath :=
  { packageName := "demo", currentVersion := "1.0.0", targetVersion := "3.0.0",
    isBreaking := true, fixedVulnerabilities := ["V1"], changelogUrl := none,
    confidence := Confidence.low, riskScore := 5 }

/-- C2 witness: in the all-breaking scenario of the counterexample the
returned target 3.0.0 is breaking, is a release candidate, and no release
candidate strictly exceeds it. -/
theorem breaking_fallback_highest_release_witness :
    isBreakingUpgrade "1.0.0" witnessPathC2.targetVersion = true ∧
    witnessPathC2.targetVersion ∈ findFixedVersions
      [{ id := "V1", packageName := "demo", severity := Severity.high,
         patchedVersions := ["2.0.0", "3.0.0"], source := "osv" }]
      ["1.0.0", "2.0.0", "3.0.0"] ∧
    greaterThan witnessPathC2.targetVersion "1.0.0" = true ∧
    (∃ pt, parseVersion witnessPathC2.targetVersion = some pt ∧ pt.prerelease = []) ∧
    ∀ v, v ∈ findFixedVersions
        [{ id := "V1", packageName := "demo", severity := Severity.high,
           patchedVersions := ["2.0.0", "3.0.0"], source := "osv" }]
        ["1.0.0", "2.0.0", "3.0.0"] →
      greaterThan v "1.0.0" = true →
      ∀ pv, parseVersion v = some pv → pv.prerelease = [] →
        greaterThan v witnessPathC2.targetVersion = false :=
  breaking_fallback_highest_release "demo" "1.0.0"
    [{ id := "V1", packageName := "demo", severity := Severity.high,
       patchedVersions := ["2.0.0", "3.0.0"], source := "osv" }]
    ["1.0.0", "2.0.0", "3.0.0"] (fun _ => []) none witnessPathC2 (by decide) (by decide)

/-- C3 counterexample: the target 1.5.0 is literally one of the declared
patched versions, yet the path returned for 1.0.0 carries confidence
`medium`, not `high` (this is also what the repository's own unit test
expects).  The runtime-effective second `calculateConfidence` reserves `high`
for a patched target in the same major AND minor line. -/
theorem confidence_counterexample :
    (calculateUpgradePath "demo" "1.0.0"
        [{ id := "V1", packageName := "demo", severity := Severity.high,
           patchedVersions := ["1.5.0"], source := "osv" }]
        ["1.0.0", "1.5.0"] (fun _ => []) none).map (fun p => (p.targetVersion, p.confidence)) =
      some ("1.5.0", Confidence.medium) ∧
    ("1.5.0" ∈ ["1.5.0"] ∧ Confidence.medium ≠ Confidence.high) := by decide

/-- C3 amended: for every returned upgrade path (whose target is always one
of the computed fixed versions), the confidence is `high` exactly when the
target shares both the major and the minor component of the current version,
`medium` when it shares the major but not the minor, and `low` when the
major differs. -/
theorem confidence_buckets (pkg cur : String) (vulns : List Vulnerability)
    (avail : List String) (q : String → List Vulnerability) (cl : Option String)
    (p : UpgradePath) (h : calculateUpgradePath pkg cur vulns avail q cl = some p) :
    ∃ cv tv, parseVersion cur = some cv ∧ parseVersion p.targetVersion = some tv ∧
      p.confidence = (if cv.major = tv.major then
        (if cv.minor = tv.minor then Confidence.high else Confidence.medium)
        else Confidence.low) := by
  obtain ⟨t, conf, hsafe, hconf, _, htgt, hconfp, _⟩ := calculateUpgradePath_some h
  obtain ⟨hmem, hgt, _, _⟩ := findSafestUpgrade_spec cur _ t hsafe
  obtain ⟨pt, hpt⟩ := parse_of_greaterThan_left hgt
  obtain ⟨pc, hpc⟩ := parse_of_greaterThan_right hgt
  have hcont : (findFixedVersions vulns avail).contains t = true := by
    simpa [List.contains] using List.elem_iff.mpr hmem
  refine ⟨pc, pt, hpc, htgt ▸ hpt, ?_⟩
  rw [hconfp]
  unfold calculateConfidence semverMajorMinor at hconf
  rw [hpc, hpt] at hconf
  simp only [Option.map_some, hcont, if_true] at hconf
  by_cases hmaj : pc.major = pt.major
  · by_cases hmin : pc.minor = pt.minor
    · simp [hmaj, hmin, hcont] at hconf
      simp [hmaj, hmin, hconf]
    · simp [hmaj, hmin, hcont] at hconf
      simp [hmaj, hmin, hconf]
  · simp [hmaj, hcont] at hconf
    simp [hmaj, hconf]

/-- The concrete upgrade path of the C3 witness scenario. -/
def witnessPathC3 : UpgradePath :=
  { packageName := "demo", currentVersion := "1.0.0", targetVersion := "1.5.0",
    isBreaking := false, fixedVulnerabilities := ["V1"], changelogUrl := none,
    confidence := Confidence.medium, riskScore := 2 }

/-- C3 witness: instantiating the bucket characterisation on the 1.0.0 to
1.5.0 path (same major, different minor) yields confidence `medium`. -/
theorem confidence_buckets_witness :
    ∃ cv tv, parseVersion "1.0.0" = some cv ∧ parseVersion witnessPathC3.targetVersion = some tv ∧
      witnessPathC3.confidence = (if cv.major = tv.major then
        (if cv.minor = tv.minor then Confidence.high else Confidence.medium)
        else Confidence.low) :=
  confidence_buckets "demo" "1.0.0"
    [{ id := "V1", packageName := "demo", severity := Severity.high,
       patchedVersions := ["1.5.0"], source := "osv" }]
    ["1.0.0", "1.5.0"] (fun _ => []) none witnessPathC3 (by decide)

/-- C10: every returned upgrade path lists the ids of ALL input
vulnerabilities as `fixedVulnerabilities`, whether or not the chosen target
appears in an individual vulnerability's patched versions
(src/core/updater.ts line 57 maps over the full input list). -/
theorem fixed_ids_are_all_input_ids (pkg cur : String) (vulns : List Vulnerability)
    (avail : List String) (q : String → List Vulnerability) (cl : Option String)
    (p : UpgradePath) (h : calculateUpgradePath pkg cur vulns avail q cl = some p) :
    p.fixedVulnerabilities = vulns.map (fun v => v.id) := by
  obtain ⟨_, _, _, _, _, _, _, hids⟩ := calculateUpgradePath_some h
  exact hids

/-- The concrete upgrade path of the C10 witness scenario. -/
def witnessPathC10 : UpgradePath :=
  { packageName := "demo", currentVersion := "1.0.0", targetVersion := "1.0.1",
    isBreaking := false, fixedVulnerabilities := ["VA", "VB"], changelogUrl := none,
    confidence := Confidence.high, riskScore := 0 }

/-- C10 witness: VB's only patched version 9.9.9 is not published, the chosen
target 1.0.1 does not patch VB, and VB's id is still listed as fixed. -/
theorem fixed_ids_are_all_input_ids_witness :
    witnessPathC10.fixedVulnerabilities =
      ([{ id := "VA", packageName := "demo", severity := Severity.high,
          patchedVersions := ["1.0.1"], source := "osv" },
        { id := "VB", packageName := "demo", severity := Severity.low,
          patchedVersions := ["9.9.9"], source := "osv" }] : List Vulnerability).map
        (fun v => v.id) ∧
    witnessPathC10.targetVersion ∉ ["9.9.9"] :=
  ⟨fixed_ids_are_all_input_ids "demo" "1.0.0"
    [{ id := "VA", packageName := "demo", severity := Severity.high,
       patchedVersions := ["1.0.1"], source := "osv" },
     { id := "VB", packageName := "demo", severity := Severity.low,
       patchedVersions := ["9.9.9"], source := "osv" }]
    ["1.0.0", "1.0.1"] (fun _ => []) none witnessPathC10 (by decide), by decide⟩

/-- C9: every Version Comparator operation is total with fail-safe defaults:
`satisfies` is false when either the version or the range fails to parse,
`versionsInRange` is empty on a malformed range, and `isBreakingUpgrade` is
true exactly when coercion fails on either side or the major component
increases. -/
theorem comparator_total_fail_safe :
    (∀ v r, parseVersion v = none → satisfies v r = false) ∧
    (∀ v r, parseRange r = none → satisfies v r = false) ∧
    (∀ vs r, parseRange r = none → versionsInRange vs r = []) ∧
    (∀ f t, isBreakingUpgrade f t = true ↔
      (coerceVersion f = none ∨ coerceVersion t = none ∨
       ∃ a b, coerceVersion f = some a ∧ coerceVersion t = some b ∧ a.major < b.major)) := by
  have hsat1 : ∀ v r, parseVersion v = none → satisfies v r = false := by
    intro v r hv
    unfold satisfies
    rw [hv]
  have hsat2 : ∀ v r, parseRange r = none → satisfies v r = false := by
    intro v r hr
    unfold satisfies
    rw [hr]
    cases parseVersion v <;> rfl
  refine ⟨hsat1, hsat2, ?_, ?_⟩
  · intro vs r hr
    unfold versionsInRange
    rw [List.filter_eq_nil_iff]
    intro v _
    rw [hsat2 v r hr]
    simp
  · intro f t
    unfold isBreakingUpgrade
    cases hf : coerceVersion f with
    | none => simp
    | some a =>
      cases ht : coerceVersion t with
      | none => simp
      | some b => simp [Nat.lt_iff_add_one_le]

/-- C9 witness: the fail-safe defaults at concrete malformed inputs (the
same shapes the repository's unit tests use). -/
theorem comparator_total_fail_safe_witness :
    satisfies "invalid" "^1.0.0" = false ∧
    satisfies "1.0.0" "not-a-range" = false ∧
    versionsInRange ["1.0.0", "1.1.0"] "not-a-range" = [] ∧
    isBreakingUpgrade "garbage" "2.0.0" = true :=
  ⟨comparator_total_fail_safe.1 "invalid" "^1.0.0" (by decide),
   comparator_total_fail_safe.2.1 "1.0.0" "not-a-range" (by decide),
   comparator_total_fail_safe.2.2.1 ["1.0.0", "1.1.0"] "not-a-range" (by decide),
   (comparator_total_fail_safe.2.2.2 "garbage" "2.0.0").mpr (Or.inl (by decide))⟩

/-- C5 counterexample: a first-seen record whose source is
`registry-heuristic` collides with a later record under the same
`(packageName, id)` key, and the merged record's source becomes `snyk` — the
first-seen source is NOT preserved (the merge writes
`existing.source === osv ? osv : snyk`). -/
theorem merge_source_counterexample :
    (mergeVulnerabilities
        [{ id := "GHSA-1", packageName := "left-pad", severity := Severity.high,
           source := "registry-heuristic" }]
        [{ id := "GHSA-1", packageName := "left-pad", severity := Severity.low,
           source := "snyk" }]).map (fun v => v.source) = ["snyk"] ∧
    vulnKey { id := "GHSA-1", packageName := "left-pad", severity := Severity.high,
              source := "registry-heuristic" } =
      vulnKey { id := "GHSA-1", packageName := "left-pad", severity := Severity.low,
                source := "snyk" } ∧
    "snyk" ≠ "registry-heuristic" := by decide

/-- C5 amended: on a merge-key collision the merged record's source is `osv`
when the first-seen record's source is `osv` and `snyk` otherwise, so the
first-seen source survives exactly when it is `osv` (as it is for every
record of the OSV-phase map at the scanner's call site) or already `snyk`;
any other first-seen source value is overwritten to `snyk`.  Without a
collision both sources pass through untouched. -/
theorem merge_source_policy (a b : Vulnerability) :
    (vulnKey a = vulnKey b →
      (mergeVulnerabilities [a] [b]).map (fun v => v.source) =
        [if a.source = "osv" then "osv" else "snyk"]) ∧
    (vulnKey a ≠ vulnKey b →
      (mergeVulnerabilities [a] [b]).map (fun v => v.source) = [a.source, b.source]) := by
  constructor
  · intro hk
    simp [mergeVulnerabilities, mapSet, mapGet, hk, mergeRecord]
  · intro hk
    simp [mergeVulnerabilities, mapSet, mapGet, hk, List.find?]

/-- C5 witness: an `osv` first-seen record colliding with a Snyk record keeps
source `osv`. -/
theorem merge_source_policy_witness :
    (mergeVulnerabilities
        [{ id := "X", packageName := "p", severity := Severity.high, source := "osv" }]
        [{ id := "X", packageName := "p", severity := Severity.critical, source := "snyk" }]).map
      (fun v => v.source) =
      [if ({ id := "X", packageName := "p", severity := Severity.high,
             source := "osv" } : Vulnerability).source = "osv" then "osv" else "snyk"] :=
  (merge_source_policy _ _).1 (by decide)

/-- Concatenating the batches gives back the dependency list (for a positive
batch size; fuel bounded below by the list length). -/
lemma createBatchesGo_flatten (n : Nat) (hn : 0 < n) :
    ∀ fuel (l : List Dependency), l.length ≤ fuel →
      (createBatches.go n fuel l).flatten = l := by
  intro fuel
  induction fuel with
  | zero =>
    intro l hl
    have : l = [] := List.eq_nil_of_length_eq_zero (Nat.le_zero.mp hl)
    subst this
    rfl
  | succ fuel ih =>
    intro l hl
    cases l with
    | nil => rfl
    | cons c cs =>
      have hn' : ¬(n = 0) := Nat.pos_iff_ne_zero.mp hn
      unfold createBatches.go
      simp only [hn', if_false, List.flatten_cons]
      have hlen : ((c :: cs).drop n).length ≤ fuel := by
        rw [List.length_drop]
        simp only [List.length_cons] at hl ⊢
        omega
      rw [ih ((c :: cs).drop n) hlen]
      exact List.take_append_drop n (c :: cs)

/-- `createBatches` partitions without loss or reorder. -/
lemma createBatches_flatten (l : List Dependency) (n : Nat) (hn : 0 < n) :
    (createBatches l n).flatten = l :=
  createBatchesGo_flatten n hn l.length l (Nat.le_refl _)

/-- Flattening batchwise-mapped results equals mapping over the flattened
batches. -/
lemma flatten_map_flatten (f : Dependency → List Vulnerability)
    (bs : List (List Dependency)) :
    (bs.map (fun b => (b.map f).flatten)).flatten = (bs.flatten.map f).flatten := by
  induction bs with
  | nil => rfl
  | cons b rest ih => simp [ih]

/-- `flatMap` as map-then-flatten. -/
lemma flatMap_eq_map_flatten (f : Dependency → List Vulnerability) (l : List Dependency) :
    l.flatMap f = (l.map f).flatten := by
  induction l with
  | nil => rfl
  | cons c cs ih => simp [ih]

/-- C4: vulnerability aggregation is fault-isolated per dependency and
source: for ANY per-dependency query outcomes (successes or failures), the
OSV scan equals the per-dependency recovered results in order — a failing
dependency contributes exactly `[]` while every other dependency's findings
are still returned — and likewise for the Snyk scan; a scan without a Snyk
client yields `[]`; making one chosen dependency's query fail changes only
that dependency's contribution. -/
theorem scan_isolates_per_dependency_failure :
    ∀ (dependencies : List Dependency)
      (osvQuery snykQuery : Dependency → Except String (List Vulnerability)),
      scanDependenciesWithOSV dependencies osvQuery =
        dependencies.flatMap (fun dep => recoverEmpty (osvQuery dep)) ∧
      scanDependenciesWithSnyk dependencies (some snykQuery) =
        dependencies.flatMap (fun dep => recoverEmpty (snykQuery dep)) ∧
      scanDependenciesWithSnyk dependencies none = [] ∧
      ∀ failing : Dependency,
        scanDependenciesWithOSV dependencies
          (fun dep => if dep = failing then Except.error "network error" else osvQuery dep) =
        dependencies.flatMap
          (fun dep => if dep = failing then [] else recoverEmpty (osvQuery dep)) := by
  have key : ∀ (deps : List Dependency) (q : Dependency → Except String (List Vulnerability))
      (n : Nat), 0 < n →
      ((createBatches deps n).map
        (fun batch => (batch.map (fun dep => recoverEmpty (q dep))).flatten)).flatten =
      deps.flatMap (fun dep => recoverEmpty (q dep)) := by
    intro deps q n hn
    rw [flatten_map_flatten, createBatches_flatten deps n hn, flatMap_eq_map_flatten]
  intro dependencies osvQuery snykQuery
  refine ⟨key dependencies osvQuery 20 (by omega), key dependencies snykQuery 15 (by omega),
    rfl, ?_⟩
  intro failing
  rw [show scanDependenciesWithOSV dependencies
      (fun dep => if dep = failing then Except.error "network error" else osvQuery dep) =
    ((createBatches dependencies 20).map
      (fun batch => (batch.map (fun dep => recoverEmpty
        ((fun d => if d = failing then Except.error "network error" else osvQuery d) dep))).flatten)).flatten
    from rfl]
  rw [key dependencies _ 20 (by omega)]
  congr 1
  funext dep
  by_cases hd : dep = failing
  · simp [hd, recoverEmpty]
  · simp [hd]

/-- C6: (a) any name outside the reference set obtained from a reference
name by changing exactly one character at a single position is flagged as a
typosquatting threat at high severity (the claim's own second half makes
reference-set membership take precedence, so the substitution guarantee is
stated for non-reference candidates); (b) a name that is itself in the
reference set is never flagged, even if it is one character from another
reference entry. -/
theorem typosquat_substitution_flagged :
    (∀ (c R : String), R ∈ popularPackages → c ∉ popularPackages →
      c.data.length = R.data.length → countDiffs c.data R.data = 1 →
      ∀ (deps : List Dependency) (d : Dependency), d ∈ deps → d.name = c →
        ∃ t ∈ detectTyposquatting deps, t.packageName = c ∧
          t.ttype = ThreatType.typosquatting ∧ t.severity = Severity.high) ∧
    (∀ (deps : List Dependency) (t : SupplyChainThreat), t ∈ detectTyposquatting deps →
      t.packageName ∉ popularPackages) := by
  constructor
  · intro c R hR hc hlen hdiff deps d hd hname
    have hcont : popularPackages.contains c = false := by
      cases hx : popularPackages.contains c
      · rfl
      · exact absurd (List.elem_iff.mp hx) hc
    have hts : isTypoSquat c R = true := by
      unfold isTypoSquat
      simp only [hlen, Nat.sub_self, max_self]
      simp [hlen, hdiff]
    have hflag : isTyposquattingPackage c = true := by
      unfold isTyposquattingPackage
      simp only [hcont, Bool.false_eq_true, if_false]
      rw [List.any_eq_true]
      exact ⟨R, hR, hts⟩
    refine ⟨typosquattingThreat c, ?_, rfl, rfl, rfl⟩
    apply List.mem_filterMap.mpr
    refine ⟨d, hd, ?_⟩
    rw [hname]
    simp [hflag]
  · intro deps t ht
    obtain ⟨d, hd, hsome⟩ := List.mem_filterMap.mp ht
    by_cases hf : isTyposquattingPackage d.name = true
    · simp only [hf, if_true] at hsome
      cases hsome
      intro hmem
      simp only [typosquattingThreat] at hmem
      have hcont : popularPackages.contains d.name = true := by
        simpa [List.contains] using List.elem_iff.mpr hmem
      unfold isTyposquattingPackage at hf
      rw [hcont] at hf
      simp at hf
    · simp [hf] at hsome

/-- C6 witness: `axjos` (one substitution away from the reference name
`axios`, itself outside the reference set) is flagged at high severity, and
the reference name `expres`-style threats never name a reference-set
package. -/
theorem typosquat_substitution_flagged_witness :
    (∃ t ∈ detectTyposquatting [{ name := "axjos", version := "1.0.0" }],
      t.packageName = "axjos" ∧ t.ttype = ThreatType.typosquatting ∧
      t.severity = Severity.high) ∧
    (typosquattingThreat "expres").packageName ∉ popularPackages :=
  ⟨typosquat_substitution_flagged.1 "axjos" "axios" (by decide) (by decide) (by decide)
      (by decide) [{ name := "axjos", version := "1.0.0" }]
      { name := "axjos", version := "1.0.0" } (by decide) rfl,
   typosquat_substitution_flagged.2 [{ name := "expres", version := "1.0.0" }]
      (typosquattingThreat "expres") (by decide)⟩

/-- C7 counterexample (negation of the claim's "both" possibility): no
package, whatever its registry time map and whatever the current time, can
produce two suspicious-activity findings in one scan — the rapid-release
trigger requires more than one recorded version while the new-package
trigger requires exactly one, so the two are mutually exclusive. -/
theorem activity_both_findings_impossible :
    ¬ ∃ (dep : Dependency) (timeMap : List (String × Int)) (now : Int),
      2 ≤ (detectSuspiciousActivity [dep] (fun _ => some timeMap) now).length := by
  rintro ⟨dep, timeMap, now, h⟩
  have he : detectSuspiciousActivity [dep] (fun _ => some timeMap) now =
      activityFindings dep.name timeMap now := by
    simp [detectSuspiciousActivity]
  rw [he] at h
  unfold activityFindings at h
  dsimp only at h
  split at h
  · split at h
    · rename_i hA hB
      omega
    · simp at h
  · split at h
    · simp at h
    · simp at h

/-- C7 amended: the detector emits a medium-severity suspicious-activity
finding when more than 5 publish times fall in the trailing 24-hour window
(6 trigger, 4 do not), and a medium-severity finding when the package has
exactly one version published within 7 days of now; but the two triggers are
mutually exclusive (the first needs at least six recorded versions, the
second exactly one), so a package produces zero or one finding, never
both. -/
theorem activity_trigger_characterisation (dep : Dependency)
    (timeMap : List (String × Int)) (now : Int) :
    detectSuspiciousActivity [dep] (fun _ => some timeMap) now =
      activityFindings dep.name timeMap now ∧
    (5 < (recentReleases (timeMap.map (fun p => p.2)) now).length →
      ∃ t ∈ activityFindings dep.name timeMap now,
        t.ttype = ThreatType.suspiciousActivity ∧ t.severity = Severity.medium) ∧
    ((recentReleases (timeMap.map (fun p => p.2)) now).length ≤ 5 → timeMap.length ≠ 1 →
      activityFindings dep.name timeMap now = []) ∧
    (timeMap.length = 1 → now - oldestPublish (timeMap.map (fun p => p.2)) < 7 * dayMs →
      ∃ t ∈ activityFindings dep.name timeMap now,
        t.ttype = ThreatType.suspiciousActivity ∧ t.severity = Severity.medium) ∧
    (timeMap.length = 1 → ¬(now - oldestPublish (timeMap.map (fun p => p.2)) < 7 * dayMs) →
      activityFindings dep.name timeMap now = []) ∧
    (activityFindings dep.name timeMap now).length ≤ 1 := by
  have hrecle : (recentReleases (timeMap.map (fun p => p.2)) now).length ≤ timeMap.length := by
    calc (recentReleases (timeMap.map (fun p => p.2)) now).length
        ≤ (timeMap.map (fun p => p.2)).length := List.length_filter_le _ _
      _ = timeMap.length := List.length_map _ _
  refine ⟨by simp [detectSuspiciousActivity], ?_, ?_, ?_, ?_, ?_⟩
  · intro h6
    refine ⟨rapidReleaseThreat dep.name
        (recentReleases (timeMap.map (fun p => p.2)) now).length
        (timeMap.map (fun p => p.1)).length, ?_, rfl, rfl⟩
    unfold activityFindings
    dsimp only
    apply List.mem_append_left
    rw [if_pos ⟨by rw [List.length_map]; omega, h6⟩]
    exact List.mem_singleton.mpr rfl
  · intro hr hn1
    have hA : ¬((timeMap.map (fun p => p.1)).length > 1 ∧
        (recentReleases (timeMap.map (fun p => p.2)) now).length > 5) := by
      rintro ⟨_, hx⟩
      omega
    have hB : ¬(now - oldestPublish (timeMap.map (fun p => p.2)) < 7 * dayMs ∧
        (timeMap.map (fun p => p.1)).length = 1) := by
      rintro ⟨_, hx⟩
      rw [List.length_map] at hx
      exact hn1 hx
    unfold activityFindings
    dsimp only
    rw [if_neg hA, if_neg hB]
    rfl
  · intro h1 hrec
    refine ⟨newPackageThreat dep.name
        ((now - oldestPublish (timeMap.map (fun p => p.2))).fdiv dayMs), ?_, rfl, rfl⟩
    unfold activityFindings
    dsimp only
    apply List.mem_append_right
    rw [if_pos ⟨hrec, by rw [List.length_map]; exact h1⟩]
    exact List.mem_singleton.mpr rfl
  · intro h1 hrec
    have hA : ¬((timeMap.map (fun p => p.1)).length > 1 ∧
        (recentReleases (timeMap.map (fun p => p.2)) now).length > 5) := by
      rintro ⟨hx, _⟩
      rw [List.length_map] at hx
      omega
    have hB : ¬(now - oldestPublish (timeMap.map (fun p => p.2)) < 7 * dayMs ∧
        (timeMap.map (fun p => p.1)).length = 1) := by
      rintro ⟨hx, _⟩
      exact hrec hx
    unfold activityFindings
    dsimp only
    rw [if_neg hA, if_neg hB]
    rfl
  · unfold activityFindings
    dsimp only
    split
    · split
      · rename_i hA hB
        rw [List.length_map] at hA hB
        omega
      · simp
    · split
      · simp
      · simp

/-- C7 witness: six versions published within the trailing 24-hour window
trigger the medium activity finding; four versions in the window with no
other trigger produce no finding; a single 2-day-old version triggers the
new-package finding. -/
theorem activity_trigger_characterisation_witness :
    (∃ t ∈ activityFindings "burst-pkg"
        [("1.0.0", 0), ("1.0.1", 1), ("1.0.2", 2), ("1.0.3", 3), ("1.0.4", 4), ("1.0.5", 5)] 10,
      t.ttype = ThreatType.suspiciousActivity ∧ t.severity = Severity.medium) ∧
    activityFindings "quiet-pkg" [("1.0.0", 0), ("1.0.1", 1), ("1.0.2", 2), ("1.0.3", 3)] 10 = [] ∧
    (∃ t ∈ activityFindings "new-pkg" [("1.0.0", 0)] (2 * dayMs),
      t.ttype = ThreatType.suspiciousActivity ∧ t.severity = Severity.medium) :=
  ⟨(activity_trigger_characterisation { name := "burst-pkg", version := "1.0.0" }
      [("1.0.0", 0), ("1.0.1", 1), ("1.0.2", 2), ("1.0.3", 3), ("1.0.4", 4), ("1.0.5", 5)]
      10).2.1 (by decide),
   (activity_trigger_characterisation { name := "quiet-pkg", version := "1.0.0" }
      [("1.0.0", 0), ("1.0.1", 1), ("1.0.2", 2), ("1.0.3", 3)] 10).2.2.1 (by decide) (by decide),
   (activity_trigger_characterisation { name := "new-pkg", version := "1.0.0" }
      [("1.0.0", 0)] (2 * dayMs)).2.2.2.1 (by decide) (by decide)⟩

/-- Registry stub for the C8 failing input: one package with two versions
whose install scripts hold identical matching content. -/
def evilRegistry : String → Option (List (String × List (String × String))) :=
  fun n => if n = "evil-pkg" then
    some [("1.0.0", [("preinstall", "eval(x)")]),
          ("1.0.1", [("preinstall", "eval(x)")])]
  else none

/-- C8: two versions of the same package both contain the install script
`eval(x)`, yet the detector emits exactly ONE critical threat — only for
version 1.0.0.  The fifteen regexes are created once per call with the `g`
flag, and `RegExp.test` advances the shared `lastIndex`, so the `eval`
pattern that matched in version 1.0.0's content fails on the identical
content of version 1.0.1.  The spec's "one threat per offending version"
describes the clear intent; the global-flag regex state is the slip. -/
theorem malicious_script_state_leak :
    (detectMaliciousScripts [{ name := "evil-pkg", version := "1.0.0" }] evilRegistry).map
      (fun t => (t.packageName, t.severity, t.evidence)) =
      [("evil-pkg", Severity.critical,
        ["Found suspicious patterns in install scripts",
         "Pattern: eval\\s*\\(",
         "Version: 1.0.0"])] ∧
    (detectMaliciousScripts [{ name := "evil-pkg", version := "1.0.0" }] evilRegistry).length
      = 1 := by decide
